import Mathlib

/-!
# Rein trackpad gesture interpreter: a shallow embedding

This file embeds the touch-gesture interpreter of the Rein remote-trackpad
client (the `useTrackpadGesture` hook) and the keyboard modifier/combo state
machine of the trackpad page, and proves the specified properties about them.

Positions and timestamps are modelled as rationals.  `Math.sqrt` and the
acceleration curve `calculateAccelerationMult` (whose implementation lives in
the `utils/math` module, not part of the sources; the spec leaves the curve
unspecified) are kept as parameters of the machine, collected in `Env`, so
every theorem holds for every choice of those functions.
-/

namespace Rein

/-- One active contact point, as tracked by the hook (`TrackedTouch`). -/
structure TrackedTouch where
  identifier : ℤ
  pageX : ℚ
  pageY : ℚ
  pageXStart : ℚ
  pageYStart : ℚ
  timeStamp : ℚ
deriving Repr, DecidableEq

/-- One raw contact of an event batch (`identifier`, `pageX`, `pageY`). -/
structure Touch where
  identifier : ℤ
  pageX : ℚ
  pageY : ℚ
deriving Repr, DecidableEq

/-- A raw touch event: the `changedTouches` batch and the event timestamp. -/
structure TouchEvent where
  changedTouches : List Touch
  timeStamp : ℚ
deriving Repr, DecidableEq

/-- Mouse buttons of emitted click actions. -/
inductive Button where
  | left
  | right
  | middle
deriving Repr, DecidableEq

/-- Semantic actions handed to the `send` collaborator. -/
inductive Action where
  | move (dx dy : ℚ)
  | scroll (dx dy : ℚ)
  | zoom (delta : ℚ)
  | click (button : Button) (press : Bool)
deriving Repr, DecidableEq

/-- The host functions the hook uses that are external to the sources:
`sqrt` stands for `Math.sqrt` and `accel` for `calculateAccelerationMult`
(imported from `utils/math`, not among the repository files; the spec calls
its curve a tunable detail).  All theorems are stated for an arbitrary
environment. -/
structure Env where
  sqrt : ℚ → ℚ
  accel : ℚ → ℚ

/-- A concrete environment used for witnesses and counterexamples:
it interprets the distance function as the squared distance
(`sqrt := id`) and a constant acceleration multiplier. -/
def env0 : Env :=
  { sqrt := fun q => q, accel := fun _ => 1 }

/-- Modelled from the spec: `TOUCH_MOVE_THRESHOLD` is imported from
`utils/math`, which is not among the repository files.  The spec describes it
as a move-threshold table indexed by the number of simultaneous touches, with
the last entry reused beyond the table; its length is 3, matching the
1/2/3-finger click classification and the rule that a release count above the
table length forces `moved = true`.  The concrete entries are representative
pixel values; no claim depends on them. -/
def TOUCH_MOVE_THRESHOLD : List ℚ := [10, 15, 20]

/-- Modelled from the spec: `TOUCH_TIMEOUT` is imported from `utils/math`,
which is not among the repository files.  The spec's example uses a timeout of
300 milliseconds. -/
def TOUCH_TIMEOUT : ℚ := 300

/-- Modelled from the spec: `PINCH_THRESHOLD` is imported from `utils/math`,
which is not among the repository files.  The spec's pinch example treats a
distance delta of 20 as above the default threshold. -/
def PINCH_THRESHOLD : ℚ := 10

/-- `getTouchDistance` of the hook, with `Math.sqrt` supplied by the
environment. -/
def getTouchDistance (sqrt : ℚ → ℚ) (a b : TrackedTouch) : ℚ :=
  sqrt ((a.pageX - b.pageX) ^ 2 + (a.pageY - b.pageY) ^ 2)

/-- The move threshold for `n` simultaneous touches: the table entry for `n`,
or the last entry when `n` exceeds the table length (the ternary in
`handleTouchMove`). -/
def moveThreshold (n : ℕ) : ℚ :=
  if n > TOUCH_MOVE_THRESHOLD.length then TOUCH_MOVE_THRESHOLD.getLastD 0
  else TOUCH_MOVE_THRESHOLD.getD (n - 1) 0

/-- The `localStorage` contents relevant to `getClientSettings`:
whether `localStorage` is defined, and the stored strings under
`rein_mouse_sensitivity` and `rein_mouse_invert` (`none` = no item). -/
structure Storage where
  localStorageDefined : Bool
  sensitivityItem : Option String
  invertItem : Option String
deriving Repr, DecidableEq

/-- The record returned by `getClientSettings`. -/
structure ClientSettings where
  sensitivity : ℚ
  invert : Bool
deriving Repr, DecidableEq

/-- The accumulated value of a list of decimal digit characters. -/
def digitsVal (cs : List Char) : ℕ :=
  cs.foldl (fun n c => 10 * n + (c.toNat - 48)) 0

/-- The result of JavaScript's string-to-number conversion: `NaN`, one of the
two infinities, or a finite value (represented exactly as a rational). -/
inductive JsNum where
  | nan
  | posInf
  | negInf
  | finite (q : ℚ)
deriving Repr, DecidableEq

/-- The characters JavaScript's string-to-number conversion trims
(`StrWhiteSpace`): ASCII whitespace, the line terminators, NBSP, the Unicode
space separators, and the BOM. -/
def isJsWhitespace (c : Char) : Bool :=
  c = ' ' ∨ c = '\t' ∨ c = '\n' ∨ c = '\r' ∨
    c.toNat = 11 ∨ c.toNat = 12 ∨ c.toNat = 0xA0 ∨ c.toNat = 0xFEFF ∨
    c.toNat = 0x1680 ∨ (0x2000 ≤ c.toNat ∧ c.toNat ≤ 0x200A) ∨
    c.toNat = 0x2028 ∨ c.toNat = 0x2029 ∨ c.toNat = 0x202F ∨
    c.toNat = 0x205F ∨ c.toNat = 0x3000

/-- Strip leading and trailing JavaScript whitespace. -/
def jsTrim (cs : List Char) : List Char :=
  ((cs.dropWhile isJsWhitespace).reverse.dropWhile isJsWhitespace).reverse

/-- The value of one digit character in the given base (`none` when the
character is not a digit of that base). -/
def digitVal (base : ℕ) (c : Char) : Option ℕ :=
  let v : Option ℕ :=
    if c.isDigit then some (c.toNat - 48)
    else if 'a' ≤ c ∧ c ≤ 'f' then some (c.toNat - 87)
    else if 'A' ≤ c ∧ c ≤ 'F' then some (c.toNat - 55)
    else none
  match v with
  | some d => if d < base then some d else none
  | none => none

/-- The value of a non-empty all-digit string in the given base (`none` on an
empty string or a character outside the base). -/
def parseDigitsBase (base : ℕ) (cs : List Char) : Option ℕ :=
  if cs = [] then none
  else cs.foldlM (fun n c => (digitVal base c).map (fun d => base * n + d)) 0

/-- An exponent suffix after `e`/`E`: an optional sign and at least one
digit, consuming the whole rest of the string. -/
def parseExponent (cs : List Char) : Option (Bool × ℕ) :=
  let p : Bool × List Char :=
    match cs with
    | '-' :: r => (true, r)
    | '+' :: r => (false, r)
    | r => (false, r)
  if p.2 ≠ [] ∧ p.2.all Char.isDigit then some (p.1, digitsVal p.2) else none

/-- Scale a mantissa by `10 ^ exponent` with the exponent's sign. -/
def applyExponent (m : ℚ) (neg : Bool) (ex : ℕ) : ℚ :=
  if neg then m / (10 : ℚ) ^ ex else m * (10 : ℚ) ^ ex

/-- An unsigned decimal literal (`StrUnsignedDecimalLiteral` without the
`Infinity` case): digits with an optional fraction, or a fraction alone, with
an optional exponent; the whole string must be consumed. -/
def unsignedDecimal (cs : List Char) : Option ℚ :=
  let intPart := cs.takeWhile Char.isDigit
  let rest1 := cs.dropWhile Char.isDigit
  match rest1 with
  | [] => if intPart = [] then none else some (digitsVal intPart)
  | '.' :: rest2 =>
    let frac := rest2.takeWhile Char.isDigit
    let rest3 := rest2.dropWhile Char.isDigit
    if intPart = [] ∧ frac = [] then none
    else
      let mant : ℚ := (digitsVal intPart : ℚ) + (digitsVal frac : ℚ) / (10 : ℚ) ^ frac.length
      match rest3 with
      | [] => some mant
      | e :: rest4 =>
        if e = 'e' ∨ e = 'E' then
          (parseExponent rest4).map (fun p => applyExponent mant p.1 p.2)
        else none
  | e :: rest2 =>
    if (e = 'e' ∨ e = 'E') ∧ intPart ≠ [] then
      (parseExponent rest2).map (fun p => applyExponent (digitsVal intPart : ℚ) p.1 p.2)
    else none

/-- A decimal literal with an optional sign, or signed `Infinity`
(`StrDecimalLiteral`). -/
def signedDecimal (cs : List Char) : JsNum :=
  let p : Bool × List Char :=
    match cs with
    | '-' :: r => (true, r)
    | '+' :: r => (false, r)
    | r => (false, r)
  if p.2 = ("Infinity").toList then
    if p.1 then JsNum.negInf else JsNum.posInf
  else
    match unsignedDecimal p.2 with
    | some q => JsNum.finite (if p.1 then -q else q)
    | none => JsNum.nan

/-- Models JavaScript's `Number(s)` conversion on strings (`StringToNumber`):
whitespace is trimmed, the empty string converts to 0, `0x`/`0o`/`0b`
prefixes introduce unsigned hex/octal/binary integers, and otherwise the
string is an optionally signed decimal literal with optional fraction and
exponent, or signed `Infinity`; everything else is `NaN`.  Finite values are
represented exactly as rationals, abstracting from IEEE-754 rounding and
overflow (so a literal like `1e400`, `Infinity` in JavaScript, is a large
finite rational here). -/
def jsNumber (s : String) : JsNum :=
  let cs := jsTrim s.toList
  if cs = [] then JsNum.finite 0
  else
    match cs with
    | '0' :: c :: rest =>
      if c = 'x' ∨ c = 'X' then
        match parseDigitsBase 16 rest with
        | some n => JsNum.finite n
        | none => JsNum.nan
      else if c = 'o' ∨ c = 'O' then
        match parseDigitsBase 8 rest with
        | some n => JsNum.finite n
        | none => JsNum.nan
      else if c = 'b' ∨ c = 'B' then
        match parseDigitsBase 2 rest with
        | some n => JsNum.finite n
        | none => JsNum.nan
      else signedDecimal cs
    | _ => signedDecimal cs

/-- `getClientSettings` of the hook: sensitivity from the stored string when
`Number` does not yield `NaN`, else `1.0`; invert exactly when the stored
string is `"true"`; defaults when `localStorage` is undefined.  A stored
string converting to `±Infinity` passes the source's `NaN` check and stores
an infinite sensitivity; that value has no rational representation, so the
model returns the default there and no theorem refers to that case. -/
def getClientSettings (st : Storage) : ClientSettings :=
  if st.localStorageDefined = false then { sensitivity := 1, invert := false }
  else
    let sensitivity : ℚ :=
      match st.sensitivityItem with
      | some s =>
        match jsNumber s with
        | JsNum.finite q => q
        | JsNum.posInf => 1
        | JsNum.negInf => 1
        | JsNum.nan => 1
      | none => 1
    { sensitivity := sensitivity, invert := st.invertItem == some ("true") }

/-- The mutable session state of the hook (one field per `useRef`).
`draggingTimeout` is `true` while the deferred drag-release timer is
scheduled. -/
structure GestureState where
  ongoingTouches : List TrackedTouch
  moved : Bool
  startTimeStamp : ℚ
  lastEndTimeStamp : ℚ
  releasedCount : ℕ
  dragging : Bool
  draggingTimeout : Bool
  lastPinchDist : Option ℚ
  pinching : Bool
  isTracking : Bool
deriving Repr, DecidableEq

/-- The state before any touch: every ref at its initial value. -/
def initState : GestureState :=
  { ongoingTouches := []
    moved := false
    startTimeStamp := 0
    lastEndTimeStamp := 0
    releasedCount := 0
    dragging := false
    draggingTimeout := false
    lastPinchDist := none
    pinching := false
    isTracking := false }

/-- The `TrackedTouch` built by `handleTouchStart` for a new contact: start
position equals current position. -/
def newTracked (t : Touch) (timeStamp : ℚ) : TrackedTouch :=
  { identifier := t.identifier
    pageX := t.pageX
    pageY := t.pageY
    pageXStart := t.pageX
    pageYStart := t.pageY
    timeStamp := timeStamp }

/-- `findTouchIndex` + insert-or-overwrite of `handleTouchStart`: replace the
first tracked touch with the same identifier, or append when absent. -/
def upsertTouch (tr : TrackedTouch) : List TrackedTouch → List TrackedTouch
  | [] => [tr]
  | t :: rest =>
    if t.identifier = tr.identifier then tr :: rest else t :: upsertTouch tr rest

/-- `findTouchIndex` + in-place position update of `handleTouchMove`: update
the first tracked touch with the event contact's identifier to its new
position and timestamp, returning the new list and the tracked touch as it
was before the update (`none` when the identifier is untracked). -/
def updateTouchPos (t : Touch) (timeStamp : ℚ) :
    List TrackedTouch → List TrackedTouch × Option TrackedTouch
  | [] => ([], none)
  | tr :: rest =>
    if tr.identifier = t.identifier then
      ({ tr with pageX := t.pageX, pageY := t.pageY, timeStamp := timeStamp } :: rest,
        some tr)
    else
      let p := updateTouchPos t timeStamp rest
      (tr :: p.1, p.2)

/-- `findTouchIndex` + `splice` of `handleTouchEnd`: remove the first tracked
touch with the given identifier; the flag reports whether one was found. -/
def removeTouch (id : ℤ) : List TrackedTouch → List TrackedTouch × Bool
  | [] => ([], false)
  | tr :: rest =>
    if tr.identifier = id then (rest, true)
    else
      let p := removeTouch id rest
      (tr :: p.1, p.2)

/-- `handleTouchStart`: start a session when no touch was active, insert or
overwrite the batch's contacts, record the pinch baseline when exactly two
touches are active, mark tracking, reset the gap timestamp, and upgrade a
pending drag-release timer into an active drag. -/
def handleTouchStart (env : Env) (e : TouchEvent) (s : GestureState) : GestureState :=
  let s0 :=
    if s.ongoingTouches.length = 0 then
      { s with startTimeStamp := e.timeStamp, moved := false }
    else s
  let s1 :=
    { s0 with
      ongoingTouches :=
        e.changedTouches.foldl (fun l t => upsertTouch (newTracked t e.timeStamp) l)
          s0.ongoingTouches }
  let s2 :=
    match s1.ongoingTouches with
    | [a, b] =>
      { s1 with
        lastPinchDist := some (getTouchDistance env.sqrt a b)
        pinching := false }
    | _ => s1
  let s3 := { s2 with isTracking := true, lastEndTimeStamp := 0 }
  if s3.draggingTimeout = true then
    { s3 with draggingTimeout := false, dragging := true }
  else s3

/-- The loop state of `handleTouchMove`'s batch loop: the tracked list being
updated in place, the per-axis accumulated sums, and the `moved` flag. -/
structure MoveAcc where
  ongoing : List TrackedTouch
  sumX : ℚ
  sumY : ℚ
  moved : Bool
deriving Repr, DecidableEq

/-- One iteration of `handleTouchMove`'s loop over `changedTouches`: skip
untracked identifiers; otherwise test the move threshold and session timeout,
accumulate the acceleration-weighted deltas when the elapsed time is positive,
and update the tracked position. -/
def moveStep (env : Env) (startTimeStamp timeStamp : ℚ) (acc : MoveAcc)
    (touch : Touch) : MoveAcc :=
  match updateTouchPos touch timeStamp acc.ongoing with
  | (_, none) => acc
  | (ongoing1, some tracked) =>
    let moved : Bool :=
      if acc.moved then true
      else
        let dist :=
          env.sqrt ((touch.pageX - tracked.pageXStart) ^ 2 +
            (touch.pageY - tracked.pageYStart) ^ 2)
        if dist > moveThreshold acc.ongoing.length ∨
            timeStamp - startTimeStamp ≥ TOUCH_TIMEOUT then true
        else false
    let dx := touch.pageX - tracked.pageX
    let dy := touch.pageY - tracked.pageY
    let timeDelta := timeStamp - tracked.timeStamp
    let sums : ℚ × ℚ :=
      if timeDelta > 0 then
        (acc.sumX + dx * env.accel (|dx| / timeDelta * 1000),
          acc.sumY + dy * env.accel (|dy| / timeDelta * 1000))
      else (acc.sumX, acc.sumY)
    { ongoing := ongoing1, sumX := sums.1, sumY := sums.2, moved := moved }

/-- The whole batch loop of `handleTouchMove`, before the dispatch. -/
def processMoveBatch (env : Env) (e : TouchEvent) (s : GestureState) : MoveAcc :=
  e.changedTouches.foldl (moveStep env s.startTimeStamp e.timeStamp)
    { ongoing := s.ongoingTouches, sumX := 0, sumY := 0, moved := s.moved }

/-- `handleTouchMove`: run the batch loop, then, when the session has moved
and the debounce window since the last touch-end has passed, dispatch exactly
one action chosen by scroll mode, touch count and pinch state, with
sensitivity and invert read from `localStorage` at dispatch time. -/
def handleTouchMove (env : Env) (storage : Storage) (scrollMode : Bool)
    (e : TouchEvent) (s : GestureState) : GestureState × List Action :=
  let acc := processMoveBatch env e s
  let s1 := { s with ongoingTouches := acc.ongoing, moved := acc.moved }
  if acc.moved = true ∧ e.timeStamp - s.lastEndTimeStamp ≥ TOUCH_TIMEOUT then
    let settings := getClientSettings storage
    let scrollSign : ℚ := if settings.invert = true then 1 else -1
    if scrollMode = false ∧ s1.ongoingTouches.length = 2 then
      match s1.ongoingTouches with
      | [a, b] =>
        let dist := getTouchDistance env.sqrt a b
        let delta :=
          match s1.lastPinchDist with
          | some d => dist - d
          | none => 0
        if s1.pinching = true ∨ |delta| > PINCH_THRESHOLD then
          ({ s1 with pinching := true, lastPinchDist := some dist },
            [Action.zoom (delta * settings.sensitivity)])
        else
          ({ s1 with lastPinchDist := some dist },
            [Action.scroll (acc.sumX * settings.sensitivity * scrollSign)
              (acc.sumY * settings.sensitivity * scrollSign)])
      | _ => (s1, [])
    else if scrollMode = true then
      (s1,
        [Action.scroll (acc.sumX * settings.sensitivity * scrollSign)
          (acc.sumY * settings.sensitivity * scrollSign)])
    else if s1.ongoingTouches.length = 1 ∨ s1.dragging = true then
      (s1, [Action.move (acc.sumX * settings.sensitivity) (acc.sumY * settings.sensitivity)])
    else (s1, [])
  else (s1, [])

/-- One iteration of `handleTouchEnd`'s loop: remove the contact when tracked
and count the release. -/
def endStep (acc : List TrackedTouch × ℕ) (t : Touch) : List TrackedTouch × ℕ :=
  let p := removeTouch t.identifier acc.1
  (p.1, if p.2 = true then acc.2 + 1 else acc.2)

/-- The first half of `handleTouchEnd`: remove the batch's contacts and count
the releases, record the gap timestamp, clear pinch state below two touches,
and force `moved` when the release count exceeds the threshold table
length. -/
def endCore (e : TouchEvent) (s : GestureState) : GestureState :=
  let p := e.changedTouches.foldl endStep (s.ongoingTouches, s.releasedCount)
  let s1 :=
    { s with ongoingTouches := p.1, releasedCount := p.2, lastEndTimeStamp := e.timeStamp }
  let s2 :=
    if s1.ongoingTouches.length < 2 then
      { s1 with lastPinchDist := none, pinching := false }
    else s1
  if s2.releasedCount > TOUCH_MOVE_THRESHOLD.length then { s2 with moved := true }
  else s2

/-- The drag-release part of `handleTouchEnd`'s finalization: end an active
drag with a left-button release. -/
def finalizeDrag (s : GestureState) : GestureState × List Action :=
  if s.dragging = true then
    ({ s with dragging := false }, [Action.click Button.left false])
  else (s, [])

/-- The tap part of `handleTouchEnd`'s finalization: an unmoved session ending
within the timeout is a click classified by the release count (1 = left,
2 = right, 3 = middle, otherwise nothing); a left click schedules the
deferred drag release instead of releasing immediately. -/
def finalizeTap (e : TouchEvent) (s : GestureState) : GestureState × List Action :=
  if s.moved = false ∧ e.timeStamp - s.startTimeStamp < TOUCH_TIMEOUT then
    if s.releasedCount = 1 then
      ({ s with draggingTimeout := true }, [Action.click Button.left true])
    else if s.releasedCount = 2 then
      (s, [Action.click Button.right true, Action.click Button.right false])
    else if s.releasedCount = 3 then
      (s, [Action.click Button.middle true, Action.click Button.middle false])
    else (s, [])
  else (s, [])

/-- `handleTouchEnd`: remove the batch's contacts, and when the last touch
lifted finalize the session — release an active drag, then classify an
unmoved in-time session as a tap, and reset the release count. -/
def handleTouchEnd (e : TouchEvent) (s : GestureState) : GestureState × List Action :=
  let s3 := endCore e s
  if s3.ongoingTouches.length = 0 ∧ s3.releasedCount ≥ 1 then
    let d := finalizeDrag { s3 with isTracking := false }
    let t := finalizeTap e d.1
    ({ t.1 with releasedCount := 0 }, d.2 ++ t.2)
  else (s3, [])

/-- `handleDraggingTimeout`: the deferred drag-release timer firing. -/
def handleDraggingTimeout (s : GestureState) : GestureState × List Action :=
  ({ s with draggingTimeout := false }, [Action.click Button.left false])

/-- An input to the interpreter.  Move events carry the `localStorage`
contents and the scroll-mode flag current at that moment (the hook reads both
from the outside on each call); `timerFire` is the host timer delivering the
deferred drag release. -/
inductive Event where
  | touchStart (e : TouchEvent)
  | touchMove (storage : Storage) (scrollMode : Bool) (e : TouchEvent)
  | touchEnd (e : TouchEvent)
  | timerFire
deriving Repr, DecidableEq

/-- One interpreter step: the handler for the event, with a cleared timer
never firing (`clearTimeout` semantics). -/
def step (env : Env) (s : GestureState) : Event → GestureState × List Action
  | Event.touchStart e => (handleTouchStart env e s, [])
  | Event.touchMove storage scrollMode e => handleTouchMove env storage scrollMode e s
  | Event.touchEnd e => handleTouchEnd e s
  | Event.timerFire =>
      if s.draggingTimeout = true then handleDraggingTimeout s else (s, [])

/-- Run the interpreter over a list of events, collecting all emitted
actions in order. -/
def run (env : Env) (s : GestureState) : List Event → GestureState × List Action
  | [] => (s, [])
  | ev :: rest =>
    let p := step env s ev
    let q := run env p.1 rest
    (q.1, p.2 ++ q.2)


/-! ### The keyboard modifier / combo state machine (trackpad page) -/

/-- The `ModifierState` of the trackpad page. -/
inductive ModifierState where
  | Release
  | Active
  | Hold
deriving Repr, DecidableEq

/-- Keyboard-side actions handed to the connection (`send` of a key event, or
`sendCombo` of a key combination). -/
inductive KeyAction where
  | sendKey (key : String)
  | sendCombo (keys : List String)
deriving Repr, DecidableEq

/-- `handleModifierState`, the modifier-toggle button: Active moves to Hold
when the buffer is non-empty and back to Release otherwise; Hold moves to
Release clearing the buffer; Release moves to Active clearing the buffer. -/
def handleModifierState :
    ModifierState → List String → ModifierState × List String
  | ModifierState.Active, buffer =>
    if buffer.length > 0 then (ModifierState.Hold, buffer)
    else (ModifierState.Release, buffer)
  | ModifierState.Hold, _ => (ModifierState.Release, [])
  | ModifierState.Release, _ => (ModifierState.Active, [])

/-- `handleModifier`: in Hold, send the buffered keys plus the new key as one
combo (state and buffer untouched); in Active, append the key to the buffer;
in Release, do nothing. -/
def handleModifier (key : String) (modifier : ModifierState)
    (buffer : List String) : ModifierState × List String × List KeyAction :=
  match modifier with
  | ModifierState.Hold =>
    (modifier, buffer, [KeyAction.sendCombo (buffer ++ [key])])
  | ModifierState.Active => (modifier, buffer ++ [key], [])
  | ModifierState.Release => (modifier, buffer, [])

/-- `handleKeyDown` of the trackpad page: the key is lowercased; outside
Release, backspace drops the last buffered key, escape resets to Release with
an empty buffer, and named keys go to `handleModifier`; in Release, named
keys are sent through directly. -/
def handleKeyDown (rawKey : String) (modifier : ModifierState)
    (buffer : List String) : ModifierState × List String × List KeyAction :=
  let key := rawKey.toLower
  if modifier ≠ ModifierState.Release then
    if key = ("backspace") then (modifier, buffer.dropLast, [])
    else if key = ("escape") then (ModifierState.Release, [], [])
    else if key ≠ ("unidentified") ∧ key.length > 1 then
      handleModifier key modifier buffer
    else (modifier, buffer, [])
  else
    if key = ("backspace") then
      (modifier, buffer, [KeyAction.sendKey ("backspace")])
    else if key = ("enter") then
      (modifier, buffer, [KeyAction.sendKey ("enter")])
    else if key ≠ ("unidentified") ∧ key.length > 1 then
      (modifier, buffer, [KeyAction.sendKey key])
    else (modifier, buffer, [])


/-! ### Helper lemmas -/

theorem updateTouchPos_map_id (t : Touch) (ts : ℚ) (l : List TrackedTouch) :
    ((updateTouchPos t ts l).1).map (fun tr => tr.identifier) =
      l.map (fun tr => tr.identifier) := by
  induction l with
  | nil => simp [updateTouchPos]
  | cons tr rest ih =>
    by_cases h : tr.identifier = t.identifier
    · simp [updateTouchPos, h]
    · simp [updateTouchPos, h, ih]

theorem moveStep_ongoing_map (env : Env) (a b : ℚ) (acc : MoveAcc) (touch : Touch) :
    ((moveStep env a b acc touch).ongoing).map (fun tr => tr.identifier) =
      acc.ongoing.map (fun tr => tr.identifier) := by
  rcases h : updateTouchPos touch b acc.ongoing with ⟨l1, found⟩
  have hm := updateTouchPos_map_id touch b acc.ongoing
  rw [h] at hm
  cases found with
  | none => simp [moveStep, h]
  | some tr => simpa [moveStep, h] using hm

theorem moveStep_moved (env : Env) (a b : ℚ) (acc : MoveAcc) (touch : Touch)
    (h : acc.moved = true) : (moveStep env a b acc touch).moved = true := by
  rcases hu : updateTouchPos touch b acc.ongoing with ⟨l1, found⟩
  cases found with
  | none => simpa [moveStep, hu] using h
  | some tr => simp [moveStep, hu, h]

theorem foldl_moveStep_ongoing_map (env : Env) (a b : ℚ) (touches : List Touch) :
    ∀ acc : MoveAcc,
      ((touches.foldl (moveStep env a b) acc).ongoing).map (fun tr => tr.identifier) =
        acc.ongoing.map (fun tr => tr.identifier) := by
  induction touches with
  | nil => intro acc; rfl
  | cons t rest ih =>
    intro acc
    rw [List.foldl_cons, ih, moveStep_ongoing_map]

theorem foldl_moveStep_moved (env : Env) (a b : ℚ) (touches : List Touch) :
    ∀ acc : MoveAcc, acc.moved = true →
      ((touches.foldl (moveStep env a b) acc)).moved = true := by
  induction touches with
  | nil => intro acc h; exact h
  | cons t rest ih =>
    intro acc h
    rw [List.foldl_cons]
    exact ih _ (moveStep_moved env a b acc t h)

theorem processMoveBatch_ongoing_map (env : Env) (e : TouchEvent) (s : GestureState) :
    ((processMoveBatch env e s).ongoing).map (fun tr => tr.identifier) =
      s.ongoingTouches.map (fun tr => tr.identifier) := by
  simpa [processMoveBatch] using
    foldl_moveStep_ongoing_map env s.startTimeStamp e.timeStamp e.changedTouches
      { ongoing := s.ongoingTouches, sumX := 0, sumY := 0, moved := s.moved }

theorem processMoveBatch_length (env : Env) (e : TouchEvent) (s : GestureState) :
    (processMoveBatch env e s).ongoing.length = s.ongoingTouches.length := by
  have := congrArg List.length (processMoveBatch_ongoing_map env e s)
  simpa using this

/-- Every run of `handleTouchMove` only rewrites the tracked list, the moved
flag and the pinch state, and never emits a click. -/
theorem handleTouchMove_shape (env : Env) (st : Storage) (sm : Bool)
    (e : TouchEvent) (s : GestureState) :
    ∃ p pin acts,
      handleTouchMove env st sm e s =
        ({ s with
            ongoingTouches := (processMoveBatch env e s).ongoing
            moved := (processMoveBatch env e s).moved
            lastPinchDist := p
            pinching := pin }, acts) ∧
      ∀ b pr, Action.click b pr ∉ acts := by
  dsimp only [handleTouchMove]
  split
  · split
    · split
      · split
        · exact ⟨_, _, _, rfl, by simp⟩
        · exact ⟨_, _, _, rfl, by simp⟩
      · exact ⟨s.lastPinchDist, s.pinching, _, rfl, by simp⟩
    · split
      · exact ⟨s.lastPinchDist, s.pinching, _, rfl, by simp⟩
      · split
        · exact ⟨s.lastPinchDist, s.pinching, _, rfl, by simp⟩
        · exact ⟨s.lastPinchDist, s.pinching, _, rfl, by simp⟩
  · exact ⟨s.lastPinchDist, s.pinching, _, rfl, by simp⟩

theorem removeTouch_not_found (id : ℤ) (l : List TrackedTouch)
    (h : (removeTouch id l).2 = false) : (removeTouch id l).1 = l := by
  induction l with
  | nil => rfl
  | cons tr rest ih =>
    by_cases hid : tr.identifier = id
    · simp [removeTouch, hid] at h
    · simp only [removeTouch, if_neg hid] at h ⊢
      simp [ih h]

theorem endStep_count_le (acc : List TrackedTouch × ℕ) (t : Touch) :
    acc.2 ≤ (endStep acc t).2 := by
  rcases h : removeTouch t.identifier acc.1 with ⟨l, found⟩
  cases found <;> simp [endStep, h]

theorem foldl_endStep_count_le (ts : List Touch) :
    ∀ acc : List TrackedTouch × ℕ, acc.2 ≤ (ts.foldl endStep acc).2 := by
  induction ts with
  | nil => intro acc; exact le_refl _
  | cons t rest ih =>
    intro acc
    exact le_trans (endStep_count_le acc t) (ih (endStep acc t))

theorem foldl_endStep_released (ts : List Touch) :
    ∀ acc : List TrackedTouch × ℕ, acc.1 ≠ [] → (ts.foldl endStep acc).1 = [] →
      1 ≤ (ts.foldl endStep acc).2 := by
  induction ts with
  | nil => intro acc h h2; exact absurd h2 h
  | cons t rest ih =>
    intro acc h h2
    rcases hr : removeTouch t.identifier acc.1 with ⟨l, found⟩
    cases found with
    | false =>
      have hl : l = acc.1 := by
        have := removeTouch_not_found t.identifier acc.1 (by rw [hr])
        rw [hr] at this; exact this
      have hacc : endStep acc t = acc := by
        simp [endStep, hr, hl]
      rw [List.foldl_cons, hacc] at h2 ⊢
      exact ih acc h h2
    | true =>
      have hacc : endStep acc t = (l, acc.2 + 1) := by simp [endStep, hr]
      rw [List.foldl_cons, hacc]
      calc 1 ≤ acc.2 + 1 := Nat.le_add_left 1 acc.2
        _ ≤ _ := foldl_endStep_count_le rest (l, acc.2 + 1)

theorem foldl_endStep_all (ts : List Touch) :
    ∀ (l : List TrackedTouch) (c : ℕ),
      ts.map (fun t => t.identifier) = l.map (fun tr => tr.identifier) →
      ts.foldl endStep (l, c) = ([], c + l.length) := by
  induction ts with
  | nil =>
    intro l c h
    have : l = [] := by
      cases l with
      | nil => rfl
      | cons x xs => simp at h
    subst this; rfl
  | cons t rest ih =>
    intro l c h
    cases l with
    | nil => simp at h
    | cons tr trs =>
      simp only [List.map_cons, List.cons.injEq] at h
      have hstep : endStep (tr :: trs, c) t = (trs, c + 1) := by
        simp [endStep, removeTouch, h.1]
      rw [List.foldl_cons, hstep, ih trs (c + 1) h.2]
      simp [Nat.add_assoc, Nat.add_comm 1 trs.length]

theorem upsertTouch_absent (tr : TrackedTouch) (l : List TrackedTouch)
    (h : tr.identifier ∉ l.map (fun x => x.identifier)) :
    upsertTouch tr l = l ++ [tr] := by
  induction l with
  | nil => rfl
  | cons x xs ih =>
    simp only [List.map_cons, List.mem_cons, not_or] at h
    have hx : ¬x.identifier = tr.identifier := fun hc => h.1 (hc ▸ rfl)
    simp [upsertTouch, hx, ih h.2]

theorem foldl_upsert_fresh (ttime : ℚ) (ts : List Touch) :
    ∀ l : List TrackedTouch,
      (∀ t ∈ ts, t.identifier ∉ l.map (fun x => x.identifier)) →
      (ts.map (fun t => t.identifier)).Nodup →
      ((ts.foldl (fun l t => upsertTouch (newTracked t ttime) l) l)).map
          (fun x => x.identifier) =
        l.map (fun x => x.identifier) ++ ts.map (fun t => t.identifier) := by
  induction ts with
  | nil => intro l _ _; simp
  | cons t rest ih =>
    intro l habs hnd
    simp only [List.map_cons, List.nodup_cons] at hnd
    have hup : upsertTouch (newTracked t ttime) l = l ++ [newTracked t ttime] := by
      apply upsertTouch_absent
      exact habs t (List.mem_cons_self t rest)
    rw [List.foldl_cons, hup]
    have habs2 : ∀ x ∈ rest, x.identifier ∉
        (l ++ [newTracked t ttime]).map (fun x => x.identifier) := by
      intro x hx
      simp only [List.map_append, List.map_cons, List.map_nil, List.mem_append,
        List.mem_singleton, not_or]
      refine ⟨habs x (List.mem_cons_of_mem t hx), ?_⟩
      intro hc
      apply hnd.1
      have hmem : x.identifier ∈ rest.map (fun t => t.identifier) :=
        List.mem_map_of_mem (fun t => t.identifier) hx
      simp only [newTracked] at hc
      rw [hc] at hmem
      exact hmem
    rw [ih (l ++ [newTracked t ttime]) habs2 hnd.2]
    simp [newTracked]

theorem handleTouchStart_ongoing (env : Env) (e : TouchEvent) (s : GestureState) :
    (handleTouchStart env e s).ongoingTouches =
      e.changedTouches.foldl (fun l t => upsertTouch (newTracked t e.timeStamp) l)
        s.ongoingTouches := by
  dsimp only [handleTouchStart]
  split <;> split <;> split <;> simp_all

theorem handleTouchStart_frame (env : Env) (e : TouchEvent) (s : GestureState) :
    (handleTouchStart env e s).releasedCount = s.releasedCount ∧
    (handleTouchStart env e s).lastEndTimeStamp = 0 ∧
    (handleTouchStart env e s).isTracking = true := by
  dsimp only [handleTouchStart]
  split <;> split <;> split <;> simp_all

theorem handleTouchStart_fresh (env : Env) (e : TouchEvent) (s : GestureState)
    (h : s.ongoingTouches = []) :
    (handleTouchStart env e s).startTimeStamp = e.timeStamp ∧
    (handleTouchStart env e s).moved = false := by
  dsimp only [handleTouchStart]
  split <;> split <;> split <;> simp_all

theorem handleTouchStart_no_pending (env : Env) (e : TouchEvent) (s : GestureState)
    (h : s.draggingTimeout = false) :
    (handleTouchStart env e s).dragging = s.dragging ∧
    (handleTouchStart env e s).draggingTimeout = false := by
  dsimp only [handleTouchStart]
  split <;> split <;> split <;> simp_all

theorem handleTouchStart_upgrade (env : Env) (e : TouchEvent) (s : GestureState)
    (h : s.draggingTimeout = true) :
    (handleTouchStart env e s).dragging = true ∧
    (handleTouchStart env e s).draggingTimeout = false := by
  dsimp only [handleTouchStart]
  split <;> split <;> split <;> simp_all

theorem endCore_fields (e : TouchEvent) (s : GestureState) :
    (endCore e s).ongoingTouches =
      (e.changedTouches.foldl endStep (s.ongoingTouches, s.releasedCount)).1 ∧
    (endCore e s).releasedCount =
      (e.changedTouches.foldl endStep (s.ongoingTouches, s.releasedCount)).2 ∧
    (endCore e s).dragging = s.dragging ∧
    (endCore e s).draggingTimeout = s.draggingTimeout ∧
    (endCore e s).startTimeStamp = s.startTimeStamp ∧
    (endCore e s).lastEndTimeStamp = e.timeStamp ∧
    (endCore e s).isTracking = s.isTracking := by
  dsimp only [endCore]
  split_ifs <;> exact ⟨rfl, rfl, rfl, rfl, rfl, rfl, rfl⟩

theorem finalizeTap_frame (e : TouchEvent) (s : GestureState) :
    (finalizeTap e s).1.ongoingTouches = s.ongoingTouches ∧
    (finalizeTap e s).1.dragging = s.dragging ∧
    (finalizeTap e s).1.moved = s.moved := by
  dsimp only [finalizeTap]
  split_ifs <;> exact ⟨rfl, rfl, rfl⟩

/-- The tap finalization never emits a left-button release. -/
theorem finalizeTap_no_left_release (e : TouchEvent) (s : GestureState) :
    Action.click Button.left false ∉ (finalizeTap e s).2 := by
  dsimp only [finalizeTap]
  split_ifs <;> simp

theorem handleTouchEnd_nonfinal (e : TouchEvent) (s : GestureState)
    (h : (handleTouchEnd e s).1.ongoingTouches ≠ []) :
    (handleTouchEnd e s).2 = [] ∧ (handleTouchEnd e s).1 = endCore e s := by
  dsimp only [handleTouchEnd]
  split
  · rename_i hfin
    exfalso
    apply h
    dsimp only [handleTouchEnd]
    rw [if_pos hfin]
    have h1 := (finalizeTap_frame e (finalizeDrag { endCore e s with isTracking := false }).1).1
    dsimp only
    rw [h1]
    have h2 : (finalizeDrag { endCore e s with isTracking := false }).1.ongoingTouches
        = (endCore e s).ongoingTouches := by
      dsimp only [finalizeDrag]
      split_ifs <;> rfl
    rw [h2]
    exact List.length_eq_zero.mp hfin.1
  · exact ⟨rfl, rfl⟩

/-- Finalizing with an active drag emits exactly one left-button release and
clears `dragging`. -/
theorem handleTouchEnd_final_drag (e : TouchEvent) (s : GestureState)
    (hdrag : s.dragging = true)
    (hne : s.ongoingTouches ≠ [])
    (hfin : (handleTouchEnd e s).1.ongoingTouches = []) :
    ((handleTouchEnd e s).2).count (Action.click Button.left false) = 1 ∧
    (handleTouchEnd e s).1.dragging = false := by
  have hc := endCore_fields e s
  dsimp only [handleTouchEnd] at hfin ⊢
  by_cases hcond : (endCore e s).ongoingTouches.length = 0 ∧ (endCore e s).releasedCount ≥ 1
  · rw [if_pos hcond]
    have hd : finalizeDrag { endCore e s with isTracking := false } =
        ({ endCore e s with isTracking := false, dragging := false },
          [Action.click Button.left false]) := by
      dsimp only [finalizeDrag]
      rw [if_pos]
      simpa [hc.2.2.1] using hdrag
    rw [hd]
    constructor
    · dsimp only
      rw [List.count_append]
      have hnotap := finalizeTap_no_left_release e
        ({ endCore e s with isTracking := false, dragging := false })
      rw [List.count_eq_zero.mpr hnotap]
      rfl
    · dsimp only
      have := (finalizeTap_frame e
        ({ endCore e s with isTracking := false, dragging := false })).2.1
      simpa using this
  · -- the non-final branch contradicts hfin
    rw [if_neg hcond] at hfin ⊢
    exfalso
    apply hcond
    constructor
    · rw [hfin]; rfl
    · -- releases at least one since the set went from nonempty to empty
      rw [hc.1] at hfin
      rw [hc.2.1]
      exact foldl_endStep_released e.changedTouches (s.ongoingTouches, s.releasedCount)
        (by simpa using hne) hfin

theorem run_cons (env : Env) (s : GestureState) (ev : Event) (evs : List Event) :
    run env s (ev :: evs) =
      ((run env (step env s ev).1 evs).1,
        (step env s ev).2 ++ (run env (step env s ev).1 evs).2) := rfl

theorem run_append (env : Env) (a b : List Event) :
    ∀ s : GestureState,
      run env s (a ++ b) =
        ((run env (run env s a).1 b).1,
          (run env s a).2 ++ (run env (run env s a).1 b).2) := by
  induction a with
  | nil => intro s; simp [run]
  | cons ev rest ih =>
    intro s
    rw [List.cons_append, run_cons, ih, run_cons]
    simp [run, List.append_assoc]

theorem upsertTouch_ne_nil (tr : TrackedTouch) (l : List TrackedTouch) :
    upsertTouch tr l ≠ [] := by
  cases l with
  | nil => simp [upsertTouch]
  | cons x xs =>
    dsimp only [upsertTouch]
    split <;> simp

theorem foldl_upsert_ne_nil (ttime : ℚ) (ts : List Touch) :
    ∀ l : List TrackedTouch, ts ≠ [] ∨ l ≠ [] →
      ts.foldl (fun l t => upsertTouch (newTracked t ttime) l) l ≠ [] := by
  induction ts with
  | nil =>
    intro l h
    rcases h with h | h
    · exact absurd rfl h
    · exact h
  | cons t rest ih =>
    intro l _
    rw [List.foldl_cons]
    exact ih _ (Or.inr (upsertTouch_ne_nil _ _))

/-- A session holding a converted drag: the left button is down, no deferred
release is pending, and at least one touch is active. -/
def SessionLive (s : GestureState) : Prop :=
  s.dragging = true ∧ s.draggingTimeout = false ∧ s.ongoingTouches ≠ []

instance (s : GestureState) : Decidable (SessionLive s) := by
  unfold SessionLive; infer_instance

theorem step_live (env : Env) (s : GestureState) (ev : Event)
    (hl : SessionLive s) (hne : (step env s ev).1.ongoingTouches ≠ []) :
    SessionLive (step env s ev).1 ∧
      ∀ b pr, Action.click b pr ∉ (step env s ev).2 := by
  obtain ⟨hd, hp, -⟩ := hl
  cases ev with
  | touchStart e =>
    have h1 := handleTouchStart_no_pending env e s hp
    exact ⟨⟨h1.1.trans hd, h1.2, hne⟩, by simp [step]⟩
  | touchMove st sm e =>
    obtain ⟨p, pin, acts, heq, hnc⟩ := handleTouchMove_shape env st sm e s
    refine ⟨?_, ?_⟩
    · refine ⟨?_, ?_, hne⟩
      · show (step env s (Event.touchMove st sm e)).1.dragging = true
        simp only [step, heq]
        exact hd
      · show (step env s (Event.touchMove st sm e)).1.draggingTimeout = false
        simp only [step, heq]
        exact hp
    · intro b pr
      show Action.click b pr ∉ (handleTouchMove env st sm e s).2
      rw [heq]
      exact hnc b pr
  | touchEnd e =>
    have h1 := handleTouchEnd_nonfinal e s hne
    have hc := endCore_fields e s
    refine ⟨⟨?_, ?_, hne⟩, ?_⟩
    · show (handleTouchEnd e s).1.dragging = true
      rw [h1.2, hc.2.2.1]; exact hd
    · show (handleTouchEnd e s).1.draggingTimeout = false
      rw [h1.2, hc.2.2.2.1]; exact hp
    · intro b pr
      show Action.click b pr ∉ (handleTouchEnd e s).2
      rw [h1.1]
      simp
  | timerFire =>
    refine ⟨⟨?_, ?_, hne⟩, ?_⟩ <;> simp [step, hp, hd]


/-! ### C8: the user-settings read operation -/

set_option maxRecDepth 8000 in
/-- C8 counterexample: with the string `"-2"` stored under the sensitivity
key, `getClientSettings` returns sensitivity `-2`, which is not a positive
value — refuting the claim that every stored value yields a positive
sensitivity. -/
theorem c8_counterexample :
    getClientSettings
        { localStorageDefined := true, sensitivityItem := some ("-2"),
          invertItem := none } =
      { sensitivity := -2, invert := false } ∧
    ¬(0 < (getClientSettings
        { localStorageDefined := true, sensitivityItem := some ("-2"),
          invertItem := none }).sensitivity) := by
  with_unfolding_all decide

/-- C8 (amended): `getClientSettings` returns sensitivity `1.0` and
`invert = false` when `localStorage` is unavailable or nothing is stored;
`invert` is `true` exactly when the stored invert string is `"true"`; the
returned sensitivity equals the numeric value of the stored string whenever
JavaScript's `Number` conversion yields a finite value (which may be zero or
negative), and `1.0` when it yields `NaN`. -/
theorem c8_settings_read :
    (∀ a b : Option String,
      getClientSettings
          { localStorageDefined := false, sensitivityItem := a, invertItem := b } =
        { sensitivity := 1, invert := false }) ∧
    getClientSettings
        { localStorageDefined := true, sensitivityItem := none, invertItem := none } =
      { sensitivity := 1, invert := false } ∧
    (∀ st : Storage,
      (getClientSettings st).invert = true ↔
        (st.localStorageDefined = true ∧ st.invertItem = some ("true"))) ∧
    (∀ (v : String) (i : Option String) (q : ℚ), jsNumber v = JsNum.finite q →
      (getClientSettings
          { localStorageDefined := true, sensitivityItem := some v,
            invertItem := i }).sensitivity = q) ∧
    (∀ (v : String) (i : Option String), jsNumber v = JsNum.nan →
      (getClientSettings
          { localStorageDefined := true, sensitivityItem := some v,
            invertItem := i }).sensitivity = 1) := by
  refine ⟨fun a b => rfl, rfl, ?_, ?_, ?_⟩
  · intro st
    obtain ⟨av, sv, iv⟩ := st
    cases av with
    | false => simp [getClientSettings]
    | true => simp [getClientSettings]
  · intro v i q h
    simp [getClientSettings, h]
  · intro v i h
    simp [getClientSettings, h]

set_option maxRecDepth 8000 in
/-- C8 witness: a stored `"2.5"` reads back as `5/2`, an exponent literal
`"1e3"` as `1000`, a whitespace-padded `" 2"` as `2`, a hex literal `"0x10"`
as `16`, and an unparsable stored string reads back as the default `1`. -/
theorem c8_witness :
    (getClientSettings
        { localStorageDefined := true, sensitivityItem := some ("2.5"),
          invertItem := none }).sensitivity = 5 / 2 ∧
    (getClientSettings
        { localStorageDefined := true, sensitivityItem := some ("1e3"),
          invertItem := none }).sensitivity = 1000 ∧
    (getClientSettings
        { localStorageDefined := true, sensitivityItem := some (" 2"),
          invertItem := none }).sensitivity = 2 ∧
    (getClientSettings
        { localStorageDefined := true, sensitivityItem := some ("0x10"),
          invertItem := none }).sensitivity = 16 ∧
    (getClientSettings
        { localStorageDefined := true, sensitivityItem := some ("abc"),
          invertItem := none }).sensitivity = 1 :=
  ⟨c8_settings_read.2.2.2.1 ("2.5") none (5 / 2) (by with_unfolding_all decide),
    c8_settings_read.2.2.2.1 ("1e3") none 1000 (by with_unfolding_all decide),
    c8_settings_read.2.2.2.1 (" 2") none 2 (by with_unfolding_all decide),
    c8_settings_read.2.2.2.1 ("0x10") none 16 (by with_unfolding_all decide),
    c8_settings_read.2.2.2.2 ("abc") none (by with_unfolding_all decide)⟩

/-! ### C9 and C10: the modifier / combo machine -/

/-- C9: the modifier toggle cycles Release → Active (emptying the buffer),
Active → Hold when the buffer is non-empty and Active → Release otherwise,
and Hold → Release clearing the buffer; outside Release, backspace drops the
last buffered key and escape resets to Release with an empty buffer. -/
theorem c9_modifier_cycle :
    (∀ buffer : List String,
      handleModifierState ModifierState.Release buffer = (ModifierState.Active, [])) ∧
    (∀ buffer : List String, buffer ≠ [] →
      handleModifierState ModifierState.Active buffer = (ModifierState.Hold, buffer)) ∧
    handleModifierState ModifierState.Active [] = (ModifierState.Release, []) ∧
    (∀ buffer : List String,
      handleModifierState ModifierState.Hold buffer = (ModifierState.Release, [])) ∧
    (∀ (m : ModifierState) (buffer : List String), m ≠ ModifierState.Release →
      handleKeyDown ("Backspace") m buffer = (m, buffer.dropLast, []) ∧
      handleKeyDown ("Escape") m buffer = (ModifierState.Release, [], [])) := by
  refine ⟨fun buffer => rfl, ?_, rfl, fun buffer => rfl, ?_⟩
  · intro buffer h
    have hl : buffer.length > 0 := List.length_pos.mpr h
    simp [handleModifierState, hl]
  · intro m buffer hm
    have hb : ("Backspace").toLower = ("backspace") := by
      with_unfolding_all decide
    have he : ("Escape").toLower = ("escape") := by
      with_unfolding_all decide
    cases m with
    | Release => exact absurd rfl hm
    | Active => exact ⟨by simp [handleKeyDown, hb], by simp [handleKeyDown, he]⟩
    | Hold => exact ⟨by simp [handleKeyDown, hb], by simp [handleKeyDown, he]⟩

/-- C9 witness: a non-empty buffer in Active moves to Hold, and backspace in
Active drops the buffered key. -/
theorem c9_witness :
    handleModifierState ModifierState.Active [("ctrl")] =
      (ModifierState.Hold, [("ctrl")]) ∧
    handleKeyDown ("Backspace") ModifierState.Active [("ctrl")] =
      (ModifierState.Active, [], []) :=
  ⟨c9_modifier_cycle.2.1 [("ctrl")] (by decide),
    (c9_modifier_cycle.2.2.2.2 ModifierState.Active [("ctrl")] (by decide)).1⟩

/-- C10: in Hold, delivering a key sends exactly one combo of the buffered
keys followed by the new key, leaving the state in Hold with the buffer
unchanged, so a further key sends another combo with the same prefix. -/
theorem c10_hold_combo (key1 key2 : String) (buffer : List String) :
    handleModifier key1 ModifierState.Hold buffer =
      (ModifierState.Hold, buffer, [KeyAction.sendCombo (buffer ++ [key1])]) ∧
    handleModifier key2 (handleModifier key1 ModifierState.Hold buffer).1
        (handleModifier key1 ModifierState.Hold buffer).2.1 =
      (ModifierState.Hold, buffer, [KeyAction.sendCombo (buffer ++ [key2])]) :=
  ⟨rfl, rfl⟩


/-! ### C2: a touch start during the pending drag-release window -/

/-- C2: a touch start arriving while the deferred drag-release timer is
pending cancels the timer and sets `dragging`; from then on, as long as
touches remain active, every step keeps the drag live and emits no click at
all (in particular no `press = false`); and the touch end that empties the
touch set emits exactly one `click(left, press = false)` and clears
`dragging`. -/
theorem c2_pending_start_upgrades_to_drag (env : Env) :
    (∀ (e : TouchEvent) (s : GestureState),
      s.draggingTimeout = true → e.changedTouches ≠ [] →
      (handleTouchStart env e s).draggingTimeout = false ∧
      (handleTouchStart env e s).dragging = true ∧
      (handleTouchStart env e s).ongoingTouches ≠ []) ∧
    (∀ (s : GestureState) (ev : Event),
      SessionLive s → (step env s ev).1.ongoingTouches ≠ [] →
      SessionLive (step env s ev).1 ∧
        ∀ b pr, Action.click b pr ∉ (step env s ev).2) ∧
    (∀ (e : TouchEvent) (s : GestureState),
      SessionLive s → (handleTouchEnd e s).1.ongoingTouches = [] →
      ((handleTouchEnd e s).2).count (Action.click Button.left false) = 1 ∧
      (handleTouchEnd e s).1.dragging = false) := by
  refine ⟨?_, ?_, ?_⟩
  · intro e s hp hne
    have h1 := handleTouchStart_upgrade env e s hp
    refine ⟨h1.2, h1.1, ?_⟩
    rw [handleTouchStart_ongoing]
    exact foldl_upsert_ne_nil e.timeStamp e.changedTouches s.ongoingTouches (Or.inl hne)
  · exact fun s ev hl hne => step_live env s ev hl hne
  · intro e s hl hfin
    exact handleTouchEnd_final_drag e s hl.1 hl.2.2 hfin

/-- A single-contact event used by the C2 witness. -/
def c2eStart : TouchEvent := { changedTouches := [⟨5, 1, 2⟩], timeStamp := 10 }

/-- A post-tap state with the drag-release timer pending, used by the C2
witness. -/
def c2sPend : GestureState := { initState with draggingTimeout := true }

/-- A live drag state with one tracked touch, used by the C2 witness. -/
def c2sLive : GestureState :=
  { initState with dragging := true, ongoingTouches := [newTracked ⟨5, 1, 2⟩ 10] }

/-- A move event during the drag, used by the C2 witness. -/
def c2evMove : Event :=
  Event.touchMove { localStorageDefined := false, sensitivityItem := none, invertItem := none }
    false { changedTouches := [⟨5, 3, 4⟩], timeStamp := 20 }

/-- The final touch end of the drag session, used by the C2 witness. -/
def c2eEnd : TouchEvent := { changedTouches := [⟨5, 3, 4⟩], timeStamp := 30 }

/-- C2 witness: a concrete pending-timer start, a mid-drag move, and the
final end, instantiating the three parts of the theorem. -/
theorem c2_witness :
    ((handleTouchStart env0 c2eStart c2sPend).draggingTimeout = false ∧
      (handleTouchStart env0 c2eStart c2sPend).dragging = true ∧
      (handleTouchStart env0 c2eStart c2sPend).ongoingTouches ≠ []) ∧
    (SessionLive (step env0 c2sLive c2evMove).1 ∧
      Action.click Button.left false ∉ (step env0 c2sLive c2evMove).2) ∧
    (((handleTouchEnd c2eEnd c2sLive).2).count (Action.click Button.left false) = 1 ∧
      (handleTouchEnd c2eEnd c2sLive).1.dragging = false) :=
  ⟨(c2_pending_start_upgrades_to_drag env0).1 c2eStart c2sPend
      (by with_unfolding_all decide) (by with_unfolding_all decide),
    ⟨((c2_pending_start_upgrades_to_drag env0).2.1 c2sLive c2evMove
        (by with_unfolding_all decide) (by with_unfolding_all decide)).1,
      ((c2_pending_start_upgrades_to_drag env0).2.1 c2sLive c2evMove
        (by with_unfolding_all decide) (by with_unfolding_all decide)).2
        Button.left false⟩,
    (c2_pending_start_upgrades_to_drag env0).2.2 c2eEnd c2sLive
      (by with_unfolding_all decide) (by with_unfolding_all decide)⟩


/-! ### C4: how many actions one move dispatch emits -/

theorem processMoveBatch_moved (env : Env) (e : TouchEvent) (s : GestureState)
    (h : s.moved = true) : (processMoveBatch env e s).moved = true := by
  dsimp only [processMoveBatch]
  exact foldl_moveStep_moved env s.startTimeStamp e.timeStamp e.changedTouches _ h

/-- C4 (amended): when the session has moved and the debounce window has
passed, `handleTouchMove` dispatches exactly one action when scroll mode is
on, or exactly two touches are active, or exactly one touch is active, or a
drag is in progress — and dispatches nothing otherwise (for instance with
three active touches, scroll mode off and no drag). -/
theorem c4_dispatch_count (env : Env) (st : Storage) (sm : Bool) (e : TouchEvent)
    (s : GestureState) (hmoved : s.moved = true)
    (hdeb : e.timeStamp - s.lastEndTimeStamp ≥ TOUCH_TIMEOUT) :
    (handleTouchMove env st sm e s).2.length =
      (if sm = true ∨ s.ongoingTouches.length = 2 ∨ s.ongoingTouches.length = 1 ∨
          s.dragging = true then 1 else 0) := by
  have hacc := processMoveBatch_moved env e s hmoved
  have hlen := processMoveBatch_length env e s
  dsimp only [handleTouchMove]
  rw [if_pos (And.intro hacc hdeb)]
  by_cases h2 : sm = false ∧ (processMoveBatch env e s).ongoing.length = 2
  · rw [if_pos h2]
    obtain ⟨a, b, hab⟩ := List.length_eq_two.mp h2.2
    rw [hab]
    have hS : s.ongoingTouches.length = 2 := by rw [← hlen, h2.2]
    rw [if_pos (Or.inr (Or.inl hS))]
    split
    · split <;> rfl
    · simp_all
  · rw [if_neg h2]
    by_cases hsm : sm = true
    · rw [if_pos hsm, if_pos (Or.inl hsm)]; rfl
    · rw [if_neg hsm]
      have hsmf : sm = false := by
        cases sm
        · rfl
        · exact absurd rfl hsm
      have hne2 : ¬s.ongoingTouches.length = 2 := fun hc =>
        h2 ⟨hsmf, by rw [hlen, hc]⟩
      by_cases h1 : (processMoveBatch env e s).ongoing.length = 1 ∨ s.dragging = true
      · rw [if_pos h1]
        have h1s : s.ongoingTouches.length = 1 ∨ s.dragging = true := by
          rw [← hlen]; exact h1
        rw [if_pos (Or.inr (Or.inr h1s))]
        rfl
      · rw [if_neg h1]
        have hright : ¬(sm = true ∨ s.ongoingTouches.length = 2 ∨
            s.ongoingTouches.length = 1 ∨ s.dragging = true) := by
          rintro (hc | hc | hc | hc)
          · exact hsm hc
          · exact hne2 hc
          · exact h1 (Or.inl (hlen.trans hc))
          · exact h1 (Or.inr hc)
        rw [if_neg hright]
        rfl

/-- An empty storage used by concrete C4 traces. -/
def c4st : Storage :=
  { localStorageDefined := false, sensitivityItem := none, invertItem := none }

/-- A three-finger touch start at time 0. -/
def c4start : Event :=
  Event.touchStart { changedTouches := [⟨1, 0, 0⟩, ⟨2, 50, 0⟩, ⟨3, 100, 0⟩], timeStamp := 0 }

/-- A move of the first finger at time 300 (sets `moved` via the session
timeout and already satisfies the debounce window). -/
def c4move1 : Event :=
  Event.touchMove c4st false { changedTouches := [⟨1, 0, 0⟩], timeStamp := 300 }

/-- The state reached after the three-finger start and the first move. -/
def c4s : GestureState := (run env0 initState [c4start, c4move1]).1

/-- C4 counterexample: with three active touches, scroll mode off and no
drag, a move call with `moved = true` and the debounce window passed
dispatches no action at all — refuting "exactly one semantic action,
whatever the current active-touch count, scroll mode, and drag state". -/
theorem c4_counterexample :
    c4s.moved = true ∧
    (310 : ℚ) - c4s.lastEndTimeStamp ≥ TOUCH_TIMEOUT ∧
    c4s.ongoingTouches.length = 3 ∧
    c4s.dragging = false ∧
    (handleTouchMove env0 c4st false { changedTouches := [⟨1, 0, 0⟩], timeStamp := 310 }
      c4s).2 = [] := by
  with_unfolding_all decide

/-- A one-touch, already-moved state used by the C4 witness. -/
def c4ws : GestureState :=
  { initState with ongoingTouches := [newTracked ⟨1, 0, 0⟩ 0], moved := true }

/-- C4 witness: a single-touch move dispatch emits exactly one action. -/
theorem c4_witness :
    (handleTouchMove env0 c4st false { changedTouches := [⟨1, 5, 5⟩], timeStamp := 300 }
        c4ws).2.length =
      (if (false : Bool) = true ∨ c4ws.ongoingTouches.length = 2 ∨
          c4ws.ongoingTouches.length = 1 ∨ c4ws.dragging = true then 1 else 0) :=
  c4_dispatch_count env0 c4st false
    { changedTouches := [⟨1, 5, 5⟩], timeStamp := 300 } c4ws
    (by with_unfolding_all decide) (by with_unfolding_all decide)


/-! ### C7: events whose identifiers are all untracked -/

theorem updateTouchPos_absent (t : Touch) (ts : ℚ) (l : List TrackedTouch)
    (h : t.identifier ∉ l.map (fun x => x.identifier)) :
    updateTouchPos t ts l = (l, none) := by
  induction l with
  | nil => rfl
  | cons tr rest ih =>
    simp only [List.map_cons, List.mem_cons, not_or] at h
    have hne : ¬tr.identifier = t.identifier := fun hc => h.1 hc.symm
    simp [updateTouchPos, hne, ih h.2]

theorem moveStep_absent (env : Env) (a b : ℚ) (acc : MoveAcc) (t : Touch)
    (h : t.identifier ∉ acc.ongoing.map (fun x => x.identifier)) :
    moveStep env a b acc t = acc := by
  simp [moveStep, updateTouchPos_absent t b acc.ongoing h]

theorem foldl_moveStep_absent (env : Env) (a b : ℚ) (ts : List Touch)
    (acc : MoveAcc)
    (h : ∀ t ∈ ts, t.identifier ∉ acc.ongoing.map (fun x => x.identifier)) :
    ts.foldl (moveStep env a b) acc = acc := by
  induction ts with
  | nil => rfl
  | cons t rest ih =>
    rw [List.foldl_cons, moveStep_absent env a b acc t (h t (List.mem_cons_self t rest))]
    exact ih fun x hx => h x (List.mem_cons_of_mem t hx)

theorem processMoveBatch_absent (env : Env) (e : TouchEvent) (s : GestureState)
    (h : ∀ t ∈ e.changedTouches,
      t.identifier ∉ s.ongoingTouches.map (fun x => x.identifier)) :
    processMoveBatch env e s =
      { ongoing := s.ongoingTouches, sumX := 0, sumY := 0, moved := s.moved } := by
  dsimp only [processMoveBatch]
  exact foldl_moveStep_absent env s.startTimeStamp e.timeStamp e.changedTouches _ h

theorem removeTouch_absent (id : ℤ) (l : List TrackedTouch)
    (h : id ∉ l.map (fun x => x.identifier)) : removeTouch id l = (l, false) := by
  induction l with
  | nil => rfl
  | cons tr rest ih =>
    simp only [List.map_cons, List.mem_cons, not_or] at h
    have hne : ¬tr.identifier = id := fun hc => h.1 hc.symm
    simp [removeTouch, hne, ih h.2]

theorem foldl_endStep_absent (ts : List Touch) (l : List TrackedTouch) (c : ℕ)
    (h : ∀ t ∈ ts, t.identifier ∉ l.map (fun x => x.identifier)) :
    ts.foldl endStep (l, c) = (l, c) := by
  induction ts with
  | nil => rfl
  | cons t rest ih =>
    have hstep : endStep (l, c) t = (l, c) := by
      simp [endStep, removeTouch_absent t.identifier l (h t (List.mem_cons_self t rest))]
    rw [List.foldl_cons, hstep]
    exact ih fun x hx => h x (List.mem_cons_of_mem t hx)

/-- C7 (amended): an event all of whose identifiers are untracked updates no
tracked touch — a move leaves the tracked list, moved flag, drag, timer and
counter state unchanged but still runs the dispatch logic, which may emit one
action with zero accumulated deltas (or a zoom) and update pinch state; an
end leaves the tracked list and counter unchanged and emits nothing, but
still records the gap timestamp, clears pinch state below two touches and
applies the high-release-count rule. -/
theorem c7_untracked_ignored (env : Env) :
    (∀ (st : Storage) (sm : Bool) (e : TouchEvent) (s : GestureState),
      (∀ t ∈ e.changedTouches,
        t.identifier ∉ s.ongoingTouches.map (fun x => x.identifier)) →
      (∃ p pin, (handleTouchMove env st sm e s).1 =
        { s with lastPinchDist := p, pinching := pin }) ∧
      ((handleTouchMove env st sm e s).2 = [] ∨
        (handleTouchMove env st sm e s).2 = [Action.move 0 0] ∨
        (handleTouchMove env st sm e s).2 = [Action.scroll 0 0] ∨
        ∃ d, (handleTouchMove env st sm e s).2 = [Action.zoom d])) ∧
    (∀ (e : TouchEvent) (s : GestureState),
      (∀ t ∈ e.changedTouches,
        t.identifier ∉ s.ongoingTouches.map (fun x => x.identifier)) →
      (s.ongoingTouches = [] → s.releasedCount = 0) →
      handleTouchEnd e s =
        ({ s with
            lastEndTimeStamp := e.timeStamp
            lastPinchDist :=
              if s.ongoingTouches.length < 2 then none else s.lastPinchDist
            pinching := if s.ongoingTouches.length < 2 then false else s.pinching
            moved :=
              if s.releasedCount > TOUCH_MOVE_THRESHOLD.length then true
              else s.moved }, [])) := by
  constructor
  · intro st sm e s h
    have hb := processMoveBatch_absent env e s h
    dsimp only [handleTouchMove]
    rw [hb]
    split
    · split
      · split
        · split
          · exact ⟨⟨_, _, rfl⟩, Or.inr (Or.inr (Or.inr ⟨_, rfl⟩))⟩
          · refine ⟨⟨_, _, rfl⟩, Or.inr (Or.inr (Or.inl ?_))⟩
            simp
        · exact ⟨⟨s.lastPinchDist, s.pinching, rfl⟩, Or.inl rfl⟩
      · split
        · refine ⟨⟨s.lastPinchDist, s.pinching, rfl⟩,
            Or.inr (Or.inr (Or.inl ?_))⟩
          simp
        · split
          · refine ⟨⟨s.lastPinchDist, s.pinching, rfl⟩, Or.inr (Or.inl ?_)⟩
            simp
          · exact ⟨⟨s.lastPinchDist, s.pinching, rfl⟩, Or.inl rfl⟩
    · exact ⟨⟨s.lastPinchDist, s.pinching, rfl⟩, Or.inl rfl⟩
  · intro e s h hreach
    have hfold := foldl_endStep_absent e.changedTouches s.ongoingTouches s.releasedCount h
    have hcond : ¬(s.ongoingTouches.length = 0 ∧ s.releasedCount ≥ 1) := by
      rintro ⟨hl, hr⟩
      rw [hreach (List.length_eq_zero.mp hl)] at hr
      exact absurd hr (by norm_num)
    dsimp only [handleTouchEnd, endCore]
    rw [hfold]
    by_cases hlt : s.ongoingTouches.length < 2 <;>
      by_cases hrc : s.releasedCount > TOUCH_MOVE_THRESHOLD.length <;>
        simp [hlt, hrc, hcond] <;>
          (intro h1 h2; rw [hreach h1] at h2; exact absurd h2 (by norm_num))

/-- The state after a one-finger session start and a large first move. -/
def c7s : GestureState :=
  (run env0 initState
    [Event.touchStart { changedTouches := [⟨1, 0, 0⟩], timeStamp := 0 },
      Event.touchMove c4st false { changedTouches := [⟨1, 100, 0⟩], timeStamp := 300 }]).1

set_option maxRecDepth 4000 in
/-- C7 counterexample: a move event whose only identifier (99) is untracked
still emits a `move 0 0` action, and an end event with that identifier still
rewrites the gap timestamp — refuting "the event is ignored: no semantic
action is emitted and the interpreter's session state is left unchanged". -/
theorem c7_counterexample :
    ((99 : ℤ) ∉ c7s.ongoingTouches.map (fun x => x.identifier)) ∧
    (handleTouchMove env0 c4st false
        { changedTouches := [⟨99, 5, 5⟩], timeStamp := 600 } c7s).2 =
      [Action.move 0 0] ∧
    c7s.lastEndTimeStamp = 0 ∧
    (handleTouchEnd { changedTouches := [⟨99, 5, 5⟩], timeStamp := 600 } c7s).1.lastEndTimeStamp
      = 600 := by
  with_unfolding_all decide

/-- C7 witness: both parts of the amended theorem at the concrete untracked
identifier 99. -/
theorem c7_witness :
    ((∃ p pin, (handleTouchMove env0 c4st false
        { changedTouches := [⟨99, 5, 5⟩], timeStamp := 600 } c7s).1 =
      { c7s with lastPinchDist := p, pinching := pin }) ∧
      ((handleTouchMove env0 c4st false
          { changedTouches := [⟨99, 5, 5⟩], timeStamp := 600 } c7s).2 = [] ∨
        (handleTouchMove env0 c4st false
          { changedTouches := [⟨99, 5, 5⟩], timeStamp := 600 } c7s).2 = [Action.move 0 0] ∨
        (handleTouchMove env0 c4st false
          { changedTouches := [⟨99, 5, 5⟩], timeStamp := 600 } c7s).2 = [Action.scroll 0 0] ∨
        ∃ d, (handleTouchMove env0 c4st false
          { changedTouches := [⟨99, 5, 5⟩], timeStamp := 600 } c7s).2 = [Action.zoom d])) ∧
    handleTouchEnd { changedTouches := [⟨99, 5, 5⟩], timeStamp := 600 } c7s =
      ({ c7s with
          lastEndTimeStamp := 600
          lastPinchDist := if c7s.ongoingTouches.length < 2 then none else c7s.lastPinchDist
          pinching := if c7s.ongoingTouches.length < 2 then false else c7s.pinching
          moved :=
            if c7s.releasedCount > TOUCH_MOVE_THRESHOLD.length then true
            else c7s.moved }, []) :=
  ⟨(c7_untracked_ignored env0).1 c4st false
      { changedTouches := [⟨99, 5, 5⟩], timeStamp := 600 } c7s
      (by with_unfolding_all decide),
    (c7_untracked_ignored env0).2
      { changedTouches := [⟨99, 5, 5⟩], timeStamp := 600 } c7s
      (by with_unfolding_all decide) (by with_unfolding_all decide)⟩


/-! ### C3: pinch recognition and its persistence -/

theorem handleTouchMove_pinching_true (env : Env) (st : Storage) (sm : Bool)
    (e : TouchEvent) (s : GestureState) (hp : s.pinching = true) :
    (handleTouchMove env st sm e s).1.pinching = true := by
  dsimp only [handleTouchMove]
  split
  · split
    · split
      · split
        · exact rfl
        · exact hp
      · exact hp
    · split
      · exact hp
      · split
        · exact hp
        · exact hp
  · exact hp

theorem handleTouchStart_pinching (env : Env) (e : TouchEvent) (s : GestureState) :
    ((handleTouchStart env e s).ongoingTouches.length = 2 ∧
      (handleTouchStart env e s).pinching = false) ∨
    (handleTouchStart env e s).pinching = s.pinching := by
  dsimp only [handleTouchStart]
  split <;> split <;> split <;> simp_all

theorem endCore_pinching (e : TouchEvent) (s : GestureState) :
    (endCore e s).ongoingTouches.length < 2 ∨ (endCore e s).pinching = s.pinching := by
  dsimp only [endCore]
  split_ifs with h1 h2 <;> simp_all

theorem finalizeDrag_frame (s : GestureState) :
    (finalizeDrag s).1.ongoingTouches = s.ongoingTouches ∧
    (finalizeDrag s).1.pinching = s.pinching ∧
    (finalizeDrag s).1.startTimeStamp = s.startTimeStamp ∧
    (finalizeDrag s).1.moved = s.moved ∧
    (finalizeDrag s).1.releasedCount = s.releasedCount := by
  dsimp only [finalizeDrag]
  split_ifs <;> exact ⟨rfl, rfl, rfl, rfl, rfl⟩

theorem handleTouchEnd_pinching (e : TouchEvent) (s : GestureState) :
    (handleTouchEnd e s).1.ongoingTouches.length < 2 ∨
    (handleTouchEnd e s).1.pinching = s.pinching := by
  dsimp only [handleTouchEnd]
  split
  · left
    have h1 := (finalizeTap_frame e
      (finalizeDrag { endCore e s with isTracking := false }).1).1
    have h2 := (finalizeDrag_frame { endCore e s with isTracking := false }).1
    dsimp only
    rw [h1, h2]
    rename_i hfin
    simp only [hfin.1]
    norm_num
  · rcases endCore_pinching e s with h | h
    · exact Or.inl h
    · exact Or.inr h

/-- C3 (amended): with scroll mode off, once `pinching` is set every dispatch
with two active touches is a zoom and keeps `pinching`; a step clears
`pinching` only when a touch end leaves fewer than two active touches or a
touch start leaves exactly two active touches (re-initializing the baseline,
e.g. on an identifier re-press); and a scroll dispatch can only happen while
`pinching` is off, with the distance delta within the pinch threshold. -/
theorem c3_pinch_zoom_sticky (env : Env) :
    (∀ (st : Storage) (e : TouchEvent) (s : GestureState),
      s.pinching = true → s.ongoingTouches.length = 2 →
      ((handleTouchMove env st false e s).1.pinching = true ∧
        ∀ a ∈ (handleTouchMove env st false e s).2, ∃ d, a = Action.zoom d)) ∧
    (∀ (s : GestureState) (ev : Event), s.pinching = true →
      (step env s ev).1.pinching = true ∨
      ((step env s ev).1.ongoingTouches.length < 2 ∧ ∃ e, ev = Event.touchEnd e) ∨
      ((step env s ev).1.ongoingTouches.length = 2 ∧ ∃ e, ev = Event.touchStart e)) ∧
    (∀ (st : Storage) (e : TouchEvent) (s : GestureState) (dx dy : ℚ),
      (handleTouchMove env st false e s).2 = [Action.scroll dx dy] →
      s.pinching = false ∧ (handleTouchMove env st false e s).1.pinching = false ∧
      ∀ d0, s.lastPinchDist = some d0 →
        ∃ dist, (handleTouchMove env st false e s).1.lastPinchDist = some dist ∧
          |dist - d0| ≤ PINCH_THRESHOLD) := by
  refine ⟨?_, ?_, ?_⟩
  · intro st e s hp hlen
    have hlen2 : (processMoveBatch env e s).ongoing.length = 2 := by
      rw [processMoveBatch_length]; exact hlen
    refine ⟨handleTouchMove_pinching_true env st false e s hp, ?_⟩
    dsimp only [handleTouchMove]
    split
    · rw [if_pos (And.intro rfl hlen2)]
      obtain ⟨a, b, hab⟩ := List.length_eq_two.mp hlen2
      rw [hab]
      dsimp only
      rw [if_pos (Or.inl hp)]
      intro x hx
      simp only [List.mem_singleton] at hx
      exact ⟨_, hx⟩
    · simp
  · intro s ev hp
    cases ev with
    | touchStart e =>
      rcases handleTouchStart_pinching env e s with ⟨hl, _⟩ | hpres
      · exact Or.inr (Or.inr ⟨hl, e, rfl⟩)
      · exact Or.inl (hpres.trans hp)
    | touchMove st sm e =>
      exact Or.inl (handleTouchMove_pinching_true env st sm e s hp)
    | touchEnd e =>
      rcases handleTouchEnd_pinching e s with hl | hpres
      · exact Or.inr (Or.inl ⟨hl, e, rfl⟩)
      · exact Or.inl (hpres.trans hp)
    | timerFire =>
      left
      show (if s.draggingTimeout = true then handleDraggingTimeout s else (s, [])).1.pinching = true
      split
      · exact hp
      · exact hp
  · intro st e s dx dy hacts
    dsimp only [handleTouchMove] at hacts ⊢
    by_cases hguard : (processMoveBatch env e s).moved = true ∧
        e.timeStamp - s.lastEndTimeStamp ≥ TOUCH_TIMEOUT
    · rw [if_pos hguard] at hacts ⊢
      by_cases hsc : (false : Bool) = false ∧ (processMoveBatch env e s).ongoing.length = 2
      · rw [if_pos hsc] at hacts ⊢
        obtain ⟨a, b, hab⟩ := List.length_eq_two.mp hsc.2
        rw [hab] at hacts ⊢
        dsimp only at hacts ⊢
        by_cases hpin : s.pinching = true ∨
            |(match s.lastPinchDist with
              | some d => getTouchDistance env.sqrt a b - d
              | none => 0)| > PINCH_THRESHOLD
        · rw [if_pos hpin] at hacts
          simp at hacts
        · rw [if_neg hpin] at hacts ⊢
          push_neg at hpin
          have hpf : s.pinching = false := Bool.not_eq_true s.pinching |>.mp hpin.1
          refine ⟨hpf, hpf, ?_⟩
          intro d0 hd0
          refine ⟨getTouchDistance env.sqrt a b, rfl, ?_⟩
          have h2 := hpin.2
          rw [hd0] at h2
          exact h2
      · rw [if_neg hsc] at hacts
        rw [if_neg (by simp : ¬(false : Bool) = true)] at hacts
        by_cases hmv : (processMoveBatch env e s).ongoing.length = 1 ∨ s.dragging = true
        · rw [if_pos hmv] at hacts
          simp at hacts
        · rw [if_neg hmv] at hacts
          simp at hacts
    · rw [if_neg hguard] at hacts
      simp at hacts


/-- Two-finger touch start at distance-term 2500 (with `env0.sqrt = id`). -/
def c3e1 : Event :=
  Event.touchStart { changedTouches := [⟨1, 0, 0⟩, ⟨2, 50, 0⟩], timeStamp := 0 }

/-- A large move of finger 1: recognizes the pinch (zoom dispatch). -/
def c3e2 : Event :=
  Event.touchMove c4st false { changedTouches := [⟨1, 10, 0⟩], timeStamp := 300 }

/-- A touch start re-pressing identifier 1 while both touches stay active. -/
def c3e3 : Event :=
  Event.touchStart { changedTouches := [⟨1, 10, 0⟩], timeStamp := 310 }

/-- A small move of finger 1 after the re-press: within the pinch threshold
of the re-initialized baseline. -/
def c3e4 : Event :=
  Event.touchMove c4st false { changedTouches := [⟨1, 81 / 8, 0⟩], timeStamp := 620 }

set_option maxRecDepth 8000 in
/-- C3 counterexample: after a recognized pinch (zoom dispatched), a touch
start that re-presses an active identifier leaves two touches active yet
clears `pinching` and re-baselines, and the following dispatch emits a
scroll — refuting both that the flag stays set until the count drops below
two and that every subsequent two-touch dispatch is a zoom. -/
theorem c3_counterexample :
    (run env0 initState [c3e1, c3e2]).1.pinching = true ∧
    (run env0 initState [c3e1, c3e2]).1.ongoingTouches.length = 2 ∧
    (run env0 initState [c3e1, c3e2, c3e3]).1.pinching = false ∧
    (run env0 initState [c3e1, c3e2, c3e3]).1.ongoingTouches.length = 2 ∧
    (run env0 initState [c3e1, c3e2, c3e3, c3e4]).2 =
      [Action.zoom (-900), Action.scroll (-(1 / 8)) 0] := by
  with_unfolding_all decide

/-- The pinching two-touch state reached after `c3e1, c3e2`. -/
def c3wPinchS : GestureState := (run env0 initState [c3e1, c3e2]).1

/-- A further two-touch move event used by the C3 witness. -/
def c3wMoveE : TouchEvent := { changedTouches := [⟨1, 11, 0⟩], timeStamp := 320 }

/-- The un-pinched two-touch state right after `c3e1`. -/
def c3wScrollS : GestureState := (run env0 initState [c3e1]).1

/-- A small move that dispatches a scroll from `c3wScrollS`. -/
def c3wScrollE : TouchEvent := { changedTouches := [⟨1, 1 / 10, 0⟩], timeStamp := 300 }

set_option maxRecDepth 8000 in
/-- C3 witness: the pinching state keeps `pinching` across a dispatch, and a
concrete scroll dispatch implies `pinching` was and stays off. -/
theorem c3_witness :
    (handleTouchMove env0 c4st false c3wMoveE c3wPinchS).1.pinching = true ∧
    c3wScrollS.pinching = false ∧
    (handleTouchMove env0 c4st false c3wScrollE c3wScrollS).1.pinching = false :=
  ⟨((c3_pinch_zoom_sticky env0).1 c4st c3wMoveE c3wPinchS
      (by with_unfolding_all decide) (by with_unfolding_all decide)).1,
    ((c3_pinch_zoom_sticky env0).2.2 c4st c3wScrollE c3wScrollS (-(1 / 10)) 0
      (by with_unfolding_all decide)).1,
    ((c3_pinch_zoom_sticky env0).2.2 c4st c3wScrollE c3wScrollS (-(1 / 10)) 0
      (by with_unfolding_all decide)).2.1⟩


/-! ### C6: linearity in the sensitivity read at dispatch time -/

/-- C6: the post-move state never depends on the stored settings (so a
settings change affects no past or pending session state); a dispatched move
has `dx = accumulated sum × sensitivity` with the sensitivity read from the
storage passed to that call, a dispatched scroll additionally carries the
invert sign read from that same storage; and a run's action prefix produced
by earlier events is unaffected by later events. -/
theorem c6_sensitivity_linear (env : Env) :
    (∀ (st stP : Storage) (sm : Bool) (e : TouchEvent) (s : GestureState),
      (handleTouchMove env st sm e s).1 = (handleTouchMove env stP sm e s).1) ∧
    (∀ (st : Storage) (sm : Bool) (e : TouchEvent) (s : GestureState) (dx dy : ℚ),
      (handleTouchMove env st sm e s).2 = [Action.move dx dy] →
      dx = (processMoveBatch env e s).sumX * (getClientSettings st).sensitivity ∧
      dy = (processMoveBatch env e s).sumY * (getClientSettings st).sensitivity) ∧
    (∀ (st : Storage) (sm : Bool) (e : TouchEvent) (s : GestureState) (dx dy : ℚ),
      (handleTouchMove env st sm e s).2 = [Action.scroll dx dy] →
      dx = (processMoveBatch env e s).sumX * (getClientSettings st).sensitivity *
        (if (getClientSettings st).invert = true then 1 else -1) ∧
      dy = (processMoveBatch env e s).sumY * (getClientSettings st).sensitivity *
        (if (getClientSettings st).invert = true then 1 else -1)) ∧
    (∀ (s : GestureState) (evs1 evs2 : List Event),
      (run env s (evs1 ++ evs2)).2 =
        (run env s evs1).2 ++ (run env (run env s evs1).1 evs2).2) := by
  refine ⟨?_, ?_, ?_, ?_⟩
  · intro st stP sm e s
    dsimp only [handleTouchMove]
    by_cases hguard : (processMoveBatch env e s).moved = true ∧
        e.timeStamp - s.lastEndTimeStamp ≥ TOUCH_TIMEOUT
    · rw [if_pos hguard, if_pos hguard]
      by_cases hsc : sm = false ∧ (processMoveBatch env e s).ongoing.length = 2
      · rw [if_pos hsc, if_pos hsc]
        obtain ⟨a, b, hab⟩ := List.length_eq_two.mp hsc.2
        rw [hab]
        dsimp only
        by_cases hpin : s.pinching = true ∨
            |(match s.lastPinchDist with
              | some d => getTouchDistance env.sqrt a b - d
              | none => 0)| > PINCH_THRESHOLD
        · rw [if_pos hpin, if_pos hpin]
        · rw [if_neg hpin, if_neg hpin]
      · rw [if_neg hsc, if_neg hsc]
        by_cases hsm : sm = true
        · rw [if_pos hsm, if_pos hsm]
        · rw [if_neg hsm, if_neg hsm]
          by_cases hmv : (processMoveBatch env e s).ongoing.length = 1 ∨ s.dragging = true
          · rw [if_pos hmv, if_pos hmv]
          · rw [if_neg hmv, if_neg hmv]
    · rw [if_neg hguard, if_neg hguard]
  · intro st sm e s dx dy hacts
    dsimp only [handleTouchMove] at hacts
    by_cases hguard : (processMoveBatch env e s).moved = true ∧
        e.timeStamp - s.lastEndTimeStamp ≥ TOUCH_TIMEOUT
    · rw [if_pos hguard] at hacts
      by_cases hsc : sm = false ∧ (processMoveBatch env e s).ongoing.length = 2
      · rw [if_pos hsc] at hacts
        obtain ⟨a, b, hab⟩ := List.length_eq_two.mp hsc.2
        rw [hab] at hacts
        dsimp only at hacts
        by_cases hpin : s.pinching = true ∨
            |(match s.lastPinchDist with
              | some d => getTouchDistance env.sqrt a b - d
              | none => 0)| > PINCH_THRESHOLD
        · rw [if_pos hpin] at hacts
          simp at hacts
        · rw [if_neg hpin] at hacts
          simp at hacts
      · rw [if_neg hsc] at hacts
        by_cases hsm : sm = true
        · rw [if_pos hsm] at hacts
          simp at hacts
        · rw [if_neg hsm] at hacts
          by_cases hmv : (processMoveBatch env e s).ongoing.length = 1 ∨ s.dragging = true
          · rw [if_pos hmv] at hacts
            simp only [List.cons.injEq, Action.move.injEq, and_true] at hacts
            exact ⟨hacts.1.symm, hacts.2.symm⟩
          · rw [if_neg hmv] at hacts
            simp at hacts
    · rw [if_neg hguard] at hacts
      simp at hacts
  · intro st sm e s dx dy hacts
    dsimp only [handleTouchMove] at hacts
    by_cases hguard : (processMoveBatch env e s).moved = true ∧
        e.timeStamp - s.lastEndTimeStamp ≥ TOUCH_TIMEOUT
    · rw [if_pos hguard] at hacts
      by_cases hsc : sm = false ∧ (processMoveBatch env e s).ongoing.length = 2
      · rw [if_pos hsc] at hacts
        obtain ⟨a, b, hab⟩ := List.length_eq_two.mp hsc.2
        rw [hab] at hacts
        dsimp only at hacts
        by_cases hpin : s.pinching = true ∨
            |(match s.lastPinchDist with
              | some d => getTouchDistance env.sqrt a b - d
              | none => 0)| > PINCH_THRESHOLD
        · rw [if_pos hpin] at hacts
          simp at hacts
        · rw [if_neg hpin] at hacts
          simp only [List.cons.injEq, Action.scroll.injEq, and_true] at hacts
          exact ⟨hacts.1.symm, hacts.2.symm⟩
      · rw [if_neg hsc] at hacts
        by_cases hsm : sm = true
        · rw [if_pos hsm] at hacts
          simp only [List.cons.injEq, Action.scroll.injEq, and_true] at hacts
          exact ⟨hacts.1.symm, hacts.2.symm⟩
        · rw [if_neg hsm] at hacts
          by_cases hmv : (processMoveBatch env e s).ongoing.length = 1 ∨ s.dragging = true
          · rw [if_pos hmv] at hacts
            simp at hacts
          · rw [if_neg hmv] at hacts
            simp at hacts
    · rw [if_neg hguard] at hacts
      simp at hacts
  · intro s evs1 evs2
    rw [run_append]

/-- A storage with sensitivity 2 and no invert, used by the C6 witness. -/
def c6st2 : Storage :=
  { localStorageDefined := true, sensitivityItem := some ("2"), invertItem := none }

/-- A storage with sensitivity 2 and invert set, used by the C6 witness. -/
def c6st3 : Storage :=
  { localStorageDefined := true, sensitivityItem := some ("2"),
    invertItem := some ("true") }

/-- The move event of the C6 witness. -/
def c6e : TouchEvent := { changedTouches := [⟨1, 5, 5⟩], timeStamp := 300 }

set_option maxRecDepth 8000 in
/-- C6 witness: the post-move state is the same under two different stored
settings, and a concrete move and scroll dispatch carry the accumulated sums
times the sensitivity (times the invert sign for scroll) of the storage read
at that dispatch. -/
theorem c6_witness :
    (handleTouchMove env0 c6st2 false c6e c4ws).1 =
      (handleTouchMove env0 c4st false c6e c4ws).1 ∧
    ((10 : ℚ) = (processMoveBatch env0 c6e c4ws).sumX * (getClientSettings c6st2).sensitivity ∧
      (10 : ℚ) = (processMoveBatch env0 c6e c4ws).sumY * (getClientSettings c6st2).sensitivity) ∧
    ((10 : ℚ) = (processMoveBatch env0 c6e c4ws).sumX * (getClientSettings c6st3).sensitivity *
        (if (getClientSettings c6st3).invert = true then 1 else -1) ∧
      (10 : ℚ) = (processMoveBatch env0 c6e c4ws).sumY * (getClientSettings c6st3).sensitivity *
        (if (getClientSettings c6st3).invert = true then 1 else -1)) :=
  ⟨(c6_sensitivity_linear env0).1 c6st2 c4st false c6e c4ws,
    (c6_sensitivity_linear env0).2.1 c6st2 false c6e c4ws 10 10
      (by with_unfolding_all decide),
    (c6_sensitivity_linear env0).2.2.1 c6st3 true c6e c4ws 10 10
      (by with_unfolding_all decide)⟩


/-! ### C5: simultaneous many-finger sessions -/

theorem run_moves_keeps (env : Env) (moves : List (Storage × Bool × TouchEvent)) :
    ∀ s : GestureState,
      ((run env s (moves.map fun m => Event.touchMove m.1 m.2.1 m.2.2)).1.ongoingTouches.map
          (fun x => x.identifier) =
        s.ongoingTouches.map (fun x => x.identifier)) ∧
      (run env s (moves.map fun m => Event.touchMove m.1 m.2.1 m.2.2)).1.dragging = s.dragging ∧
      (run env s (moves.map fun m => Event.touchMove m.1 m.2.1 m.2.2)).1.draggingTimeout =
        s.draggingTimeout ∧
      (run env s (moves.map fun m => Event.touchMove m.1 m.2.1 m.2.2)).1.releasedCount =
        s.releasedCount ∧
      ∀ b pr,
        Action.click b pr ∉ (run env s (moves.map fun m => Event.touchMove m.1 m.2.1 m.2.2)).2 := by
  induction moves with
  | nil => intro s; exact ⟨rfl, rfl, rfl, rfl, by simp [run]⟩
  | cons m ms ih =>
    intro s
    obtain ⟨p, pin, acts, heq, hnc⟩ := handleTouchMove_shape env m.1 m.2.1 m.2.2 s
    have hstep : step env s (Event.touchMove m.1 m.2.1 m.2.2) =
        ({ s with
            ongoingTouches := (processMoveBatch env m.2.2 s).ongoing
            moved := (processMoveBatch env m.2.2 s).moved
            lastPinchDist := p
            pinching := pin }, acts) := heq
    rw [List.map_cons, run_cons, hstep]
    have hI := ih ({ s with
      ongoingTouches := (processMoveBatch env m.2.2 s).ongoing
      moved := (processMoveBatch env m.2.2 s).moved
      lastPinchDist := p
      pinching := pin })
    refine ⟨?_, hI.2.1, hI.2.2.1, hI.2.2.2.1, ?_⟩
    · rw [hI.1]
      exact processMoveBatch_ongoing_map env m.2.2 s
    · intro b pr
      simp only [List.mem_append, not_or]
      exact ⟨hnc b pr, hI.2.2.2.2 b pr⟩

theorem finalizeDrag_not_dragging (s : GestureState) (h : s.dragging = false) :
    finalizeDrag s = (s, []) := by
  dsimp only [finalizeDrag]
  rw [if_neg (by simp [h])]

theorem finalizeTap_moved (e : TouchEvent) (s : GestureState) (h : s.moved = true) :
    finalizeTap e s = (s, []) := by
  dsimp only [finalizeTap]
  rw [if_neg (by simp [h])]

theorem c5_end (ets : List Touch) (tEnd : ℚ) (s : GestureState)
    (hmap : ets.map (fun t => t.identifier) =
      s.ongoingTouches.map (fun x => x.identifier))
    (hn : 4 ≤ s.ongoingTouches.length)
    (hdrag : s.dragging = false) (hrel : s.releasedCount = 0) :
    (handleTouchEnd { changedTouches := ets, timeStamp := tEnd } s).2 = [] ∧
    (handleTouchEnd { changedTouches := ets, timeStamp := tEnd } s).1.moved = true := by
  have hfold := foldl_endStep_all ets s.ongoingTouches s.releasedCount hmap
  have hgt : s.releasedCount + s.ongoingTouches.length > TOUCH_MOVE_THRESHOLD.length := by
    rw [hrel]
    show 0 + _ > 3
    omega
  dsimp only [handleTouchEnd, endCore]
  rw [hfold]
  dsimp only
  rw [if_pos (show ([] : List TrackedTouch).length < 2 by norm_num)]
  rw [if_pos hgt]
  dsimp only
  rw [if_pos (And.intro (show ([] : List TrackedTouch).length = 0 from rfl)
    (show s.releasedCount + s.ongoingTouches.length ≥ 1 by omega))]
  rw [finalizeDrag_not_dragging _ (by exact hdrag)]
  dsimp only
  rw [finalizeTap_moved _ _ (by rfl)]
  exact ⟨rfl, rfl⟩


/-- The event list of a simultaneous many-finger session: one start batch,
arbitrary move events, and one end batch. -/
def c5Events (ts : List Touch) (t0 : ℚ) (moves : List (Storage × Bool × TouchEvent))
    (ets : List Touch) (tEnd : ℚ) : List Event :=
  Event.touchStart { changedTouches := ts, timeStamp := t0 } ::
    (moves.map (fun m => Event.touchMove m.1 m.2.1 m.2.2) ++
      [Event.touchEnd { changedTouches := ets, timeStamp := tEnd }])

/-- C5 (amended): a session that starts from a clean state (in particular
with no pending drag-release timer) with four or more simultaneous distinct
contacts, moves arbitrarily, and releases all of them in one batch, ends with
`moved = true` and emits no click whatever the displacement.  (Without the
clean-start proviso the claim fails: a pending timer upgrades the contact
into a drag whose left-button release click is emitted at the final
touch-end.) -/
theorem c5_many_finger_release (env : Env) (s0 : GestureState)
    (ts : List Touch) (t0 : ℚ) (moves : List (Storage × Bool × TouchEvent))
    (ets : List Touch) (tEnd : ℚ)
    (h0 : s0.ongoingTouches = []) (h1 : s0.dragging = false)
    (h2 : s0.draggingTimeout = false) (h3 : s0.releasedCount = 0)
    (hn : 4 ≤ ts.length)
    (hnd : (ts.map (fun t => t.identifier)).Nodup)
    (hmap : ets.map (fun t => t.identifier) = ts.map (fun t => t.identifier)) :
    (∀ b pr, Action.click b pr ∉ (run env s0 (c5Events ts t0 moves ets tEnd)).2) ∧
    (run env s0 (c5Events ts t0 moves ets tEnd)).1.moved = true := by
  have hstart := handleTouchStart_no_pending env
    { changedTouches := ts, timeStamp := t0 } s0 h2
  have hrel1 := (handleTouchStart_frame env
    { changedTouches := ts, timeStamp := t0 } s0).1
  have hmap1 : (handleTouchStart env { changedTouches := ts, timeStamp := t0 }
      s0).ongoingTouches.map (fun x => x.identifier) =
      ts.map (fun t => t.identifier) := by
    rw [handleTouchStart_ongoing]
    rw [h0]
    simpa using foldl_upsert_fresh t0 ts [] (by intro t _; simp) hnd
  set s1 := handleTouchStart env { changedTouches := ts, timeStamp := t0 } s0 with hs1
  have hM := run_moves_keeps env moves s1
  set M := moves.map fun m => Event.touchMove m.1 m.2.1 m.2.2 with hMdef
  set s2 := (run env s1 M).1 with hs2
  have hmap2 : ets.map (fun t => t.identifier) =
      s2.ongoingTouches.map (fun x => x.identifier) := by
    rw [hM.1, hmap1, hmap]
  have hn2 : 4 ≤ s2.ongoingTouches.length := by
    have hlen : s2.ongoingTouches.length = ts.length := by
      have := congrArg List.length (hM.1.trans hmap1)
      simpa using this
    rw [hlen]
    exact hn
  have hdrag2 : s2.dragging = false := hM.2.1.trans (hstart.1.trans h1)
  have hrel2 : s2.releasedCount = 0 := hM.2.2.2.1.trans (hrel1.trans h3)
  have hend := c5_end ets tEnd s2 hmap2 hn2 hdrag2 hrel2
  have hrun : run env s0 (c5Events ts t0 moves ets tEnd) =
      ((run env s2 [Event.touchEnd { changedTouches := ets, timeStamp := tEnd }]).1,
        ([] : List Action) ++ ((run env s1 M).2 ++
          (run env s2 [Event.touchEnd { changedTouches := ets, timeStamp := tEnd }]).2)) := by
    show run env s0 (Event.touchStart { changedTouches := ts, timeStamp := t0 } ::
      (M ++ [Event.touchEnd { changedTouches := ets, timeStamp := tEnd }])) = _
    rw [run_cons, run_append]
    rfl
  have hrunEnd : run env s2 [Event.touchEnd { changedTouches := ets, timeStamp := tEnd }] =
      ((handleTouchEnd { changedTouches := ets, timeStamp := tEnd } s2).1,
        (handleTouchEnd { changedTouches := ets, timeStamp := tEnd } s2).2) := by
    rw [run_cons]
    simp [run, step]
  constructor
  · intro b pr
    rw [hrun, hrunEnd]
    simp only [List.nil_append, List.mem_append, not_or]
    refine ⟨hM.2.2.2.2 b pr, ?_⟩
    rw [hend.1]
    simp
  · rw [hrun, hrunEnd]
    exact hend.2


/-- A quick one-finger tap, leaving the drag-release timer pending. -/
def c5x1 : Event := Event.touchStart { changedTouches := [⟨0, 0, 0⟩], timeStamp := 0 }

/-- The tap's release at time 50 (within the timeout). -/
def c5x2 : Event := Event.touchEnd { changedTouches := [⟨0, 0, 0⟩], timeStamp := 50 }

/-- Four simultaneous contacts while the drag-release timer is pending. -/
def c5x3 : Event :=
  Event.touchStart
    { changedTouches := [⟨1, 0, 0⟩, ⟨2, 10, 0⟩, ⟨3, 20, 0⟩, ⟨4, 30, 0⟩], timeStamp := 100 }

/-- The simultaneous release of all four contacts. -/
def c5xe : TouchEvent :=
  { changedTouches := [⟨1, 0, 0⟩, ⟨2, 10, 0⟩, ⟨3, 20, 0⟩, ⟨4, 30, 0⟩], timeStamp := 150 }

/-- The state with four fingers down reached after the tap and the 4-finger
start. -/
def c5xs : GestureState := (run env0 initState [c5x1, c5x2, c5x3]).1

set_option maxRecDepth 8000 in
/-- C5 counterexample: when four fingers touch simultaneously while the
drag-release timer of a preceding tap is pending, the contact is upgraded to
a drag, and releasing all four fingers simultaneously emits a
`click(left, press = false)` — refuting "no click action is emitted" for that
session (while `moved = true` still holds). -/
theorem c5_counterexample :
    (run env0 initState [c5x1, c5x2]).1.draggingTimeout = true ∧
    (run env0 initState [c5x1, c5x2]).1.ongoingTouches = [] ∧
    c5xs.ongoingTouches.length = 4 ∧
    (step env0 c5xs (Event.touchEnd c5xe)).2 = [Action.click Button.left false] ∧
    (step env0 c5xs (Event.touchEnd c5xe)).1.moved = true := by
  with_unfolding_all decide

/-- The four distinct simultaneous contacts of the C5 witness. -/
def c5wts : List Touch := [⟨1, 0, 0⟩, ⟨2, 10, 0⟩, ⟨3, 20, 0⟩, ⟨4, 30, 0⟩]

/-- C5 witness: a clean simultaneous 4-finger press-and-release session emits
no left release and ends with `moved = true`. -/
theorem c5_witness :
    Action.click Button.left false ∉
      (run env0 initState (c5Events c5wts 0 [] c5wts 50)).2 ∧
    (run env0 initState (c5Events c5wts 0 [] c5wts 50)).1.moved = true :=
  ⟨(c5_many_finger_release env0 initState c5wts 0 [] c5wts 50 rfl rfl rfl rfl
      (by with_unfolding_all decide) (by with_unfolding_all decide) rfl).1
      Button.left false,
    (c5_many_finger_release env0 initState c5wts 0 [] c5wts 50 rfl rfl rfl rfl
      (by with_unfolding_all decide) (by with_unfolding_all decide) rfl).2⟩


/-! ### C1: a single-touch tap -/

/-- The data of one move event of a single-touch session: the storage and
scroll mode current at that moment, and the contact's position and the event
timestamp. -/
structure TapMove where
  storage : Storage
  scrollMode : Bool
  x : ℚ
  y : ℚ
  t : ℚ

/-- The move event described by a `TapMove` for the contact `id`. -/
def tapMoveEvent (id : ℤ) (m : TapMove) : Event :=
  Event.touchMove m.storage m.scrollMode
    { changedTouches := [⟨id, m.x, m.y⟩], timeStamp := m.t }

/-- The session invariant of an unmoved single-touch tap: exactly one tracked
touch with start position `(x0, y0)`, the session unmoved and started at
`t0`, nothing released, no drag and no pending timer. -/
def tapInv (id : ℤ) (x0 y0 t0 : ℚ) (s : GestureState) : Prop :=
  (∃ x y t, s.ongoingTouches =
    [{ identifier := id, pageX := x, pageY := y, pageXStart := x0,
        pageYStart := y0, timeStamp := t }]) ∧
  s.moved = false ∧ s.startTimeStamp = t0 ∧ s.lastEndTimeStamp = 0 ∧
  s.releasedCount = 0 ∧ s.dragging = false ∧ s.draggingTimeout = false

theorem tap_start (env : Env) (s0 : GestureState) (id : ℤ) (x0 y0 t0 : ℚ)
    (h0 : s0.ongoingTouches = []) (h2 : s0.draggingTimeout = false) :
    handleTouchStart env { changedTouches := [⟨id, x0, y0⟩], timeStamp := t0 } s0 =
      { s0 with
        ongoingTouches := [newTracked ⟨id, x0, y0⟩ t0]
        moved := false
        startTimeStamp := t0
        lastEndTimeStamp := 0
        isTracking := true } := by
  simp [handleTouchStart, h0, h2, upsertTouch]

theorem tap_move_step (env : Env) (id : ℤ) (x0 y0 t0 : ℚ) (m : TapMove)
    (s : GestureState) (hinv : tapInv id x0 y0 t0 s)
    (hdist : env.sqrt ((m.x - x0) ^ 2 + (m.y - y0) ^ 2) ≤ moveThreshold 1)
    (ht : m.t - t0 < TOUCH_TIMEOUT) :
    step env s (tapMoveEvent id m) =
      ({ s with
          ongoingTouches :=
            [{ identifier := id, pageX := m.x, pageY := m.y, pageXStart := x0,
                pageYStart := y0, timeStamp := m.t }]
          moved := false }, []) := by
  obtain ⟨⟨x, y, t, hong⟩, hmoved, hstart, hlast, hrel, hdragS, hpend⟩ := hinv
  have hdist2 : ¬(env.sqrt ((m.x - x0) ^ 2 + (m.y - y0) ^ 2) > moveThreshold 1) :=
    not_lt.mpr hdist
  have ht2 : ¬(m.t - t0 ≥ TOUCH_TIMEOUT) := not_le.mpr ht
  have haccong :
      (processMoveBatch env { changedTouches := [⟨id, m.x, m.y⟩], timeStamp := m.t }
        s).ongoing =
      [{ identifier := id, pageX := m.x, pageY := m.y, pageXStart := x0,
          pageYStart := y0, timeStamp := m.t }] := by
    simp [processMoveBatch, moveStep, updateTouchPos, hong]
  have haccm :
      (processMoveBatch env { changedTouches := [⟨id, m.x, m.y⟩], timeStamp := m.t }
        s).moved = false := by
    simp [processMoveBatch, moveStep, updateTouchPos, hong, hmoved, hstart,
      hdist2, ht2]
  show handleTouchMove env m.storage m.scrollMode
    { changedTouches := [⟨id, m.x, m.y⟩], timeStamp := m.t } s = _
  dsimp only [handleTouchMove]
  rw [if_neg (by rw [haccm]; simp)]
  rw [haccong, haccm]

theorem tap_run_moves (env : Env) (id : ℤ) (x0 y0 t0 : ℚ) (moves : List TapMove) :
    ∀ s : GestureState, tapInv id x0 y0 t0 s →
      (∀ m ∈ moves,
        env.sqrt ((m.x - x0) ^ 2 + (m.y - y0) ^ 2) ≤ moveThreshold 1 ∧
        m.t - t0 < TOUCH_TIMEOUT) →
      (run env s (moves.map (tapMoveEvent id))).2 = [] ∧
      tapInv id x0 y0 t0 (run env s (moves.map (tapMoveEvent id))).1 := by
  induction moves with
  | nil => intro s hinv _; exact ⟨rfl, hinv⟩
  | cons m ms ih =>
    intro s hinv hmvs
    have hm := hmvs m (List.mem_cons_self m ms)
    have hstep := tap_move_step env id x0 y0 t0 m s hinv hm.1 hm.2
    rw [List.map_cons, run_cons, hstep]
    have hinv2 : tapInv id x0 y0 t0
        ({ s with
            ongoingTouches :=
              [{ identifier := id, pageX := m.x, pageY := m.y, pageXStart := x0,
                  pageYStart := y0, timeStamp := m.t }]
            moved := false }) := by
      obtain ⟨-, -, hstart, hlast, hrel, hdragS, hpend⟩ := hinv
      exact ⟨⟨m.x, m.y, m.t, rfl⟩, rfl, hstart, hlast, hrel, hdragS, hpend⟩
    have hrest := ih _ hinv2 (fun mp hmp => hmvs mp (List.mem_cons_of_mem m hmp))
    refine ⟨?_, hrest.2⟩
    rw [hrest.1]
    rfl

theorem tap_end_step (id : ℤ) (x0 y0 t0 xe ye tEnd : ℚ) (s : GestureState)
    (hinv : tapInv id x0 y0 t0 s) (htEnd : tEnd - t0 < TOUCH_TIMEOUT) :
    handleTouchEnd { changedTouches := [⟨id, xe, ye⟩], timeStamp := tEnd } s =
      ({ s with
          ongoingTouches := []
          releasedCount := 0
          lastEndTimeStamp := tEnd
          lastPinchDist := none
          pinching := false
          isTracking := false
          draggingTimeout := true }, [Action.click Button.left true]) := by
  obtain ⟨⟨x, y, t, hong⟩, hmoved, hstart, hlast, hrel, hdragS, hpend⟩ := hinv
  have hfold : List.foldl endStep (s.ongoingTouches, s.releasedCount) [⟨id, xe, ye⟩] =
      ([], 1) := by
    rw [hong, hrel]
    simp [endStep, removeTouch]
  dsimp only [handleTouchEnd, endCore]
  rw [hfold]
  dsimp only
  rw [if_pos (show ([] : List TrackedTouch).length < 2 by norm_num)]
  rw [if_neg (show ¬((1 : ℕ) > TOUCH_MOVE_THRESHOLD.length) by norm_num [TOUCH_MOVE_THRESHOLD])]
  rw [if_pos (And.intro (show ([] : List TrackedTouch).length = 0 from rfl)
    (le_refl 1))]
  rw [finalizeDrag_not_dragging _ (by exact hdragS)]
  dsimp only
  dsimp only [finalizeTap]
  rw [if_pos (And.intro (by exact hmoved) (by rw [hstart]; exact htEnd))]
  rw [if_pos rfl]
  rfl


/-- The events of a single-touch session: one start, the given moves, one
end. -/
def c1Events (id : ℤ) (x0 y0 t0 : ℚ) (moves : List TapMove) (xe ye tEnd : ℚ) :
    List Event :=
  Event.touchStart { changedTouches := [⟨id, x0, y0⟩], timeStamp := t0 } ::
    (moves.map (tapMoveEvent id) ++
      [Event.touchEnd { changedTouches := [⟨id, xe, ye⟩], timeStamp := tEnd }])

/-- C1: a single-touch session that starts from a clean state, whose moves
all stay within the 1-touch move threshold of the start position and within
the timeout, and which ends within the timeout, emits exactly one
`click(left, press = true)` at touch-end and leaves the drag-release timer
pending; if the timer then fires with no intervening touch start, exactly
one further `click(left, press = false)` is emitted. -/
theorem c1_single_tap_click (env : Env) (s0 : GestureState) (id : ℤ)
    (x0 y0 t0 : ℚ) (moves : List TapMove) (xe ye tEnd : ℚ)
    (h0 : s0.ongoingTouches = []) (h1 : s0.dragging = false)
    (h2 : s0.draggingTimeout = false) (h3 : s0.releasedCount = 0)
    (hmvs : ∀ m ∈ moves,
      env.sqrt ((m.x - x0) ^ 2 + (m.y - y0) ^ 2) ≤ moveThreshold 1 ∧
      m.t - t0 < TOUCH_TIMEOUT)
    (hEnd : tEnd - t0 < TOUCH_TIMEOUT) :
    (run env s0 (c1Events id x0 y0 t0 moves xe ye tEnd)).2 =
      [Action.click Button.left true] ∧
    (run env s0 (c1Events id x0 y0 t0 moves xe ye tEnd)).1.draggingTimeout = true ∧
    (run env s0 (c1Events id x0 y0 t0 moves xe ye tEnd ++ [Event.timerFire])).2 =
      [Action.click Button.left true, Action.click Button.left false] := by
  have hS := tap_start env s0 id x0 y0 t0 h0 h2
  have hinv1 : tapInv id x0 y0 t0
      (handleTouchStart env { changedTouches := [⟨id, x0, y0⟩], timeStamp := t0 } s0) := by
    rw [hS]
    exact ⟨⟨x0, y0, t0, rfl⟩, rfl, rfl, rfl, h3, h1, h2⟩
  have hMv := tap_run_moves env id x0 y0 t0 moves _ hinv1 hmvs
  have hE := tap_end_step id x0 y0 t0 xe ye tEnd _ hMv.2 hEnd
  have hrun : run env s0 (c1Events id x0 y0 t0 moves xe ye tEnd) =
      ((handleTouchEnd { changedTouches := [⟨id, xe, ye⟩], timeStamp := tEnd }
          (run env
            (handleTouchStart env { changedTouches := [⟨id, x0, y0⟩], timeStamp := t0 } s0)
            (moves.map (tapMoveEvent id))).1).1,
        [Action.click Button.left true]) := by
    show run env s0
      (Event.touchStart { changedTouches := [⟨id, x0, y0⟩], timeStamp := t0 } ::
        (moves.map (tapMoveEvent id) ++
          [Event.touchEnd { changedTouches := [⟨id, xe, ye⟩], timeStamp := tEnd }])) = _
    rw [run_cons, run_append]
    dsimp only [step]
    rw [hMv.1, run_cons]
    dsimp only [step, run]
    rw [hE]
    simp
  have hTpend : (handleTouchEnd { changedTouches := [⟨id, xe, ye⟩], timeStamp := tEnd }
      (run env
        (handleTouchStart env { changedTouches := [⟨id, x0, y0⟩], timeStamp := t0 } s0)
        (moves.map (tapMoveEvent id))).1).1.draggingTimeout = true := by
    rw [hE]
  refine ⟨by rw [hrun], by rw [hrun]; exact hTpend, ?_⟩
  rw [run_append, hrun]
  rw [run_cons]
  dsimp only [step, run]
  rw [if_pos hTpend]
  simp [handleDraggingTimeout]


/-- The one small move of the C1 witness session. -/
def c1wm : TapMove :=
  { storage := c4st, scrollMode := false, x := 101, y := 100, t := 20 }

set_option maxRecDepth 8000 in
/-- C1 witness: the spec's example tap (id 1 at (100,100), released at t=50
within the 300ms timeout, with one sub-threshold move) emits
`click(left, true)`, leaves the timer pending, and the timer firing emits
`click(left, false)`. -/
theorem c1_witness :
    (run env0 initState (c1Events 1 100 100 0 [c1wm] 100 100 50)).2 =
      [Action.click Button.left true] ∧
    (run env0 initState (c1Events 1 100 100 0 [c1wm] 100 100 50)).1.draggingTimeout
      = true ∧
    (run env0 initState (c1Events 1 100 100 0 [c1wm] 100 100 50 ++ [Event.timerFire])).2 =
      [Action.click Button.left true, Action.click Button.left false] :=
  c1_single_tap_click env0 initState 1 100 100 0 [c1wm] 100 100 50 rfl rfl rfl rfl
    (by with_unfolding_all decide) (by with_unfolding_all decide)

end Rein
